import Mathlib

/-!
# Changeset application of `pkg/kev` (changeset.go) and `getMemoryQuantity` (extract.go)

A shallow embedding of the patch applier: the override document is an explicit
value that every patch function takes and returns, a Go run-time panic (failed
type assertion, slice index out of range) is an `Except` error, and each call
of `log.Debugf` is recorded as an event next to the returned audit message.
The byte-quantity formatter works on integers: `int64` products wrap around
explicitly, and the one float64 value it prints is a dyadic rational that is
rounded exactly.
-/

namespace Kev

/-! ## Go maps with string keys -/

/-- A Go map with string keys, kept as an association list; only the first
binding of a key is visible. -/
abbrev GoMap (V : Type) := List (String × V)

/-- Go `v, ok := m[k]`. -/
def mapGet {V : Type} : GoMap V → String → Option V
  | [], _ => none
  | (k2, v) :: rest, k => if k2 = k then some v else mapGet rest k

/-- Go `delete(m, k)`. -/
def mapDelete {V : Type} : GoMap V → String → GoMap V
  | [], _ => []
  | (k2, v) :: rest, k => if k2 = k then mapDelete rest k else (k2, v) :: mapDelete rest k

/-- Go `m[k] = v`. -/
def mapSet {V : Type} (m : GoMap V) (k : String) (v : V) : GoMap V :=
  (k, v) :: mapDelete m k

/-! ## Data model -/

/-- Content of an `interface{}` stored inside an extension block. -/
inductive Dyn where
  | null
  | str (s : String)
  | num (n : Int)
  | bool (b : Bool)
  | seq (xs : List Dyn)
  | strMap (kv : List (String × Dyn))

/-- Modelled from the spec: the record type `ServiceConfig`, which is declared
outside changeset.go and extract.go. The spec lists a service record as name,
label map, environment map and optional extension block; the label and
environment maps are taken as allocated maps, the extension block is `none`
for the Go `nil` map that changeset.go line 127 tests for. -/
structure ServiceConfig where
  Name : String
  Labels : GoMap String
  Environment : GoMap String
  Extensions : Option (GoMap Dyn)

/-- Modelled from the spec: the record type `VolumeConfig` (a volume record
with a label map, as built at extract.go line 56). -/
structure VolumeConfig where
  Labels : GoMap String

/-- Dynamic content of a Go `interface{}`, as held by the fields `Value` and
`Index` of a change. -/
inductive Any where
  | nil
  | str (s : String)
  | int (n : Int)
  | bool (b : Bool)
  | strMap (m : GoMap Dyn)
  | service (s : ServiceConfig)
  | volume (v : VolumeConfig)

/-- Modelled from the spec: the struct `change` (fields Type, Parent, Target,
Index, Value as used by changeset.go). `Type_` is the Go field `Type`. -/
structure change where
  Type_ : String
  Value : Any
  Parent : String
  Target : String
  Index : Any

/-- Modelled from the spec: the struct `changeset` (one version change, the
ordered service changes, the ordered volume changes). -/
structure changeset where
  version : change
  services : List change
  volumes : List change

/-- Modelled from the spec: the struct `composeOverride` (version string,
ordered service list, name-keyed volume map). The services are held by value,
as `append(override.Services, newValue)` of a `ServiceConfig` shows. -/
structure composeOverride where
  Version : String
  Services : List ServiceConfig
  Volumes : GoMap VolumeConfig

/-- The constants of package `config` that changeset.go reads, taken as a
parameter: the two base label tables and the extension key. -/
structure Config where
  BaseServiceLabels : GoMap String
  BaseVolumeLabels : GoMap String
  K8SExtensionKey : String

def CREATE : String := "create"
def UPDATE : String := "update"
def DELETE : String := "delete"

/-- The Go run-time panics that the patch functions can raise. -/
inductive Fault where
  | typeAssertion
  | indexOutOfRange
  deriving DecidableEq, Repr

/-- One call of `log.Debugf`: the format string and its arguments. -/
structure LogCall where
  format : String
  args : List Any

/-- What one patch function leaves behind: the document, the returned audit
message and the calls of `log.Debugf` it made. -/
structure Patched where
  doc : composeOverride
  msg : String
  logged : List LogCall

/-- The zero value `change{}`. -/
def change.zero : change :=
  { Type_ := "", Value := Any.nil, Parent := "", Target := "", Index := Any.nil }

/-- The test `reflect.DeepEqual(chg, change{})`: every field is its zero value,
the two interface fields holding nothing. -/
def change.isZero (chg : change) : Bool :=
  chg.Type_ == "" && chg.Parent == "" && chg.Target == "" &&
    (match chg.Index with
     | Any.nil => true
     | _ => false) &&
    (match chg.Value with
     | Any.nil => true
     | _ => false)

/-! ## changeset.go -/

/-- Flat list of all available changes (changeset.go lines 34-42). -/
def changeset.changes (cset : changeset) : List change :=
  let out : List change := []
  let out := if !cset.version.isZero then out ++ [cset.version] else out
  let out := out ++ cset.services
  out ++ cset.volumes

/-- Whether a changeset has no patches to apply (changeset.go lines 45-47). -/
def changeset.HasNoPatches (cset : changeset) : Bool :=
  decide (cset.changes.length ≤ 0)

/-- Go `x.(string)`. -/
def asString : Any → Except Fault String
  | Any.str s => Except.ok s
  | _ => Except.error Fault.typeAssertion

/-- Go `x.(int)`. -/
def asInt : Any → Except Fault Int
  | Any.int n => Except.ok n
  | _ => Except.error Fault.typeAssertion

/-- Go `x.(ServiceConfig)`. -/
def asService : Any → Except Fault ServiceConfig
  | Any.service s => Except.ok s
  | _ => Except.error Fault.typeAssertion

/-- Go `x.(VolumeConfig)`. -/
def asVolume : Any → Except Fault VolumeConfig
  | Any.volume v => Except.ok v
  | _ => Except.error Fault.typeAssertion

/-- Go `s[i]` on a slice: a position outside `0 ≤ i < len(s)` panics. -/
def sliceAt {α : Type} (s : List α) (i : Int) : Except Fault α :=
  if i < 0 then Except.error Fault.indexOutOfRange
  else
    match s[i.toNat]? with
    | some a => Except.ok a
    | none => Except.error Fault.indexOutOfRange

/-- The body of `change.patchVersion` (changeset.go lines 73-84). -/
def change.patchVersion (chg : change) (override : composeOverride) : Except Fault Patched :=
  if chg.Type_ ≠ UPDATE then
    Except.ok { doc := override, msg := "", logged := [] }
  else do
    let pre := override.Version
    let newValue ← asString chg.Value
    let msg := "version " ++ pre ++ " updated to " ++ newValue
    Except.ok { doc := { override with Version := newValue }, msg := msg,
                logged := [{ format := msg, args := [] }] }

/-- Modelled from the spec: label condensation, whose Go body
(`condenseLabels`) lies outside changeset.go and extract.go. The result holds every
entry of the current map unchanged, followed by every default entry whose key
the current map lacks. -/
def condense (current base : GoMap String) : GoMap String :=
  current ++ base.filter (fun kv => (mapGet current kv.1).isNone)

/-- Modelled from the spec: `ServiceConfig.condenseLabels`, condensing the
labels of a service record and leaving its other fields alone. -/
def ServiceConfig.condenseLabels (sc : ServiceConfig) (base : GoMap String) : ServiceConfig :=
  { sc with Labels := condense sc.Labels base }

/-- Modelled from the spec: `VolumeConfig.condenseLabels`, condensing the
labels of a volume record. -/
def VolumeConfig.condenseLabels (vc : VolumeConfig) (base : GoMap String) : VolumeConfig :=
  { vc with Labels := condense vc.Labels base }

/-- The body of `change.patchService` (changeset.go lines 86-136). In the
extensions row `svc` is a copy of the slice element: a map that the element
already holds is shared with the copy, so the write reaches the document; a
map allocated at line 128 belongs to the copy alone. -/
def change.patchService (cfg : Config) (chg : change) (override : composeOverride) :
    Except Fault Patched :=
  if chg.Type_ = CREATE then do
    let payload ← asService chg.Value
    let newValue := payload.condenseLabels cfg.BaseServiceLabels
    let msg := "added service: " ++ newValue.Name
    Except.ok { doc := { override with Services := override.Services ++ [newValue] },
                msg := msg, logged := [{ format := msg, args := [] }] }
  else if chg.Type_ = DELETE then
    if chg.Parent = "environment" then do
      let i ← asInt chg.Index
      let svc ← sliceAt override.Services i
      let svc2 := { svc with Environment := mapDelete svc.Environment chg.Target }
      let msg := "removed env var: " ++ chg.Target ++ " from service " ++ svc2.Name
      Except.ok { doc := { override with Services := override.Services.set i.toNat svc2 },
                  msg := msg, logged := [{ format := msg, args := [] }] }
    else do
      let i ← asInt chg.Index
      let svc ← sliceAt override.Services i
      let deletedSvcName := svc.Name
      let msg := "removed service: " ++ deletedSvcName
      Except.ok { doc := { override with
                             Services := override.Services.take i.toNat ++
                               override.Services.drop (i.toNat + 1) },
                  msg := msg, logged := [{ format := msg, args := [] }] }
  else if chg.Type_ = UPDATE then
    if chg.Parent = "labels" then do
      let i ← asInt chg.Index
      let svc ← sliceAt override.Services i
      let lookup := mapGet svc.Labels chg.Target
      let newValue ← asString chg.Value
      let svc2 := { svc with Labels := mapSet svc.Labels chg.Target newValue }
      let doc := { override with Services := override.Services.set i.toNat svc2 }
      match lookup with
      | some pre =>
        Except.ok { doc := doc, msg := "",
                    logged := [{ format := "service [%s], label [%s] updated, from:[%s] to:[%s]",
                                 args := [Any.str svc2.Name, Any.str chg.Target, Any.str pre,
                                          Any.str newValue] }] }
      | none => Except.ok { doc := doc, msg := "", logged := [] }
    else if chg.Parent = "extensions" then do
      let i ← asInt chg.Index
      let svc ← sliceAt override.Services i
      let svcName := svc.Name
      match chg.Value with
      | Any.strMap newValue =>
        let written : LogCall :=
          { format := "service [%s] extensions updated to %+v",
            args := [Any.str svcName, Any.strMap newValue] }
        match svc.Extensions with
        | none => Except.ok { doc := override, msg := "", logged := [written] }
        | some ext =>
          let svc2 := { svc with
                          Extensions := some (mapSet ext cfg.K8SExtensionKey (Dyn.strMap newValue)) }
          Except.ok { doc := { override with Services := override.Services.set i.toNat svc2 },
                      msg := "", logged := [written] }
      | _ =>
        Except.ok { doc := override, msg := "",
                    logged := [{ format := "unable to update service [%s], invalid value %+v",
                                 args := [Any.str svcName, Any.strMap []] }] }
    else Except.ok { doc := override, msg := "", logged := [] }
  else Except.ok { doc := override, msg := "", logged := [] }

/-- The body of `change.patchVolume` (changeset.go lines 138-153). -/
def change.patchVolume (cfg : Config) (chg : change) (override : composeOverride) :
    Except Fault Patched :=
  if chg.Type_ = CREATE then do
    let payload ← asVolume chg.Value
    let newValue := payload.condenseLabels cfg.BaseVolumeLabels
    let name ← asString chg.Index
    let msg := "added volume: " ++ name
    Except.ok { doc := { override with Volumes := mapSet override.Volumes name newValue },
                msg := msg, logged := [{ format := msg, args := [] }] }
  else if chg.Type_ = DELETE then do
    let name ← asString chg.Index
    let msg := "removed volume: " ++ name
    Except.ok { doc := { override with Volumes := mapDelete override.Volumes name },
                msg := msg, logged := [{ format := msg, args := [] }] }
  else Except.ok { doc := override, msg := "", logged := [] }

/-- What a loop over changes leaves behind: the document, the audit messages in
the order of the changes, and the calls of `log.Debugf`. -/
structure Applied where
  doc : composeOverride
  out : List String
  logged : List LogCall

/-- The loop shared by `applyServicesPatchesIfAny` and
`applyVolumesPatchesIfAny`: each change is applied to the document as the
previous ones left it, and its message is appended to `out`. -/
def applyLoop (patch : change → composeOverride → Except Fault Patched) :
    List change → Applied → Except Fault Applied
  | [], acc => Except.ok acc
  | chg :: rest, acc => do
    let r ← patch chg acc.doc
    applyLoop patch rest
      { doc := r.doc, out := acc.out ++ [r.msg], logged := acc.logged ++ r.logged }

/-- The body of `changeset.applyVersionPatchesIfAny` (changeset.go lines 49-55). -/
def changeset.applyVersionPatchesIfAny (cset : changeset) (o : composeOverride) :
    Except Fault Patched :=
  let chg := cset.version
  if chg.isZero then Except.ok { doc := o, msg := "", logged := [] }
  else chg.patchVersion o

/-- The body of `changeset.applyServicesPatchesIfAny` (changeset.go lines 57-63). -/
def changeset.applyServicesPatchesIfAny (cfg : Config) (cset : changeset) (o : composeOverride) :
    Except Fault Applied :=
  applyLoop (change.patchService cfg) cset.services { doc := o, out := [], logged := [] }

/-- The body of `changeset.applyVolumesPatchesIfAny` (changeset.go lines 65-71). -/
def changeset.applyVolumesPatchesIfAny (cfg : Config) (cset : changeset) (o : composeOverride) :
    Except Fault Applied :=
  applyLoop (change.patchVolume cfg) cset.volumes { doc := o, out := [], logged := [] }

/-! ## extract.go: getMemoryQuantity -/

/-- The value an `int64` holds after an arithmetic result `x` wraps around. -/
def wrap64 (x : Int) : Int := (x + 2 ^ 63) % 2 ^ 64 - 2 ^ 63

/-- The loop of `removeInt64Factors(value, 1024)` in the Kubernetes library
(k8s.io/apimachinery, package resource), which `Quantity.String` runs to put a
BinarySI quantity in canonical form: `for result >= 1024 && result%1024 == 0`
it counts one factor and divides. -/
def stripLoop (result : Int) (times : Nat) : Int × Nat :=
  if 1024 ≤ result ∧ Int.tmod result 1024 = 0 then
    stripLoop (Int.tdiv result 1024) (times + 1)
  else (result, times)
termination_by result.toNat
decreasing_by
  rename_i h
  have h2 : Int.tdiv result 1024 = result / 1024 :=
    Int.tdiv_eq_ediv (by omega) (by omega)
  rw [h2]
  omega

/-- The BinarySI suffix for `times` factors of 1024 (the suffix table of the
Kubernetes library); no suffix for none. -/
def binarySuffix (times : Nat) : String :=
  (["", "Ki", "Mi", "Gi", "Ti", "Pi", "Ei"][times]?).getD ""

/-- What `q.String()` returns for `q := resource.NewQuantity(b, resource.BinarySI)`,
after the documentation and source of the Kubernetes library, which is not part
of this repository: the canonical form has no fractional digits and the largest
suffix that loses no precision, so every factor of 1024 is moved from the
number into the suffix. The library takes the absolute value first and puts
the sign back. (For a quantity strictly between -1024 and 1024 the library
prints the plain decimal number; getMemoryQuantity reaches `q.String()` only
for multiples of 1024, where that is "0", as here.) -/
def quantityString (b : Int) : String :=
  let negative := decide (b < 0)
  let result := if negative then wrap64 (-b) else b
  let stripped := stripLoop result 0
  let amount := if negative then wrap64 (-stripped.1) else stripped.1
  toString amount ++ binarySuffix stripped.2

/-- The loop of getMemoryQuantity (extract.go lines 127-130) from the state
`n`, `div`, `exp` on: while `n >= unit`, `div *= unit` (an `int64` product),
`exp++` and `n /= unit`. Returns the final `div` and `exp`. -/
def unitLoop (n div : Int) (exp : Nat) : Int × Nat :=
  if 1024 ≤ n then unitLoop (Int.tdiv n 1024) (wrap64 (div * 1024)) (exp + 1)
  else (div, exp)
termination_by n.toNat
decreasing_by
  have h2 : Int.tdiv n 1024 = n / 1024 := Int.tdiv_eq_ediv (by omega) (by omega)
  rw [h2]
  omega

/-- Rounding of the fraction `num / den` to the nearest integer, a tie going to
the even one. -/
def roundHalfEven (num den : Nat) : Nat :=
  let q := num / den
  let r := num % den
  if 2 * r < den then q
  else if den < 2 * r then q + 1
  else if q % 2 = 0 then q else q + 1

/-- The conversion `float64(b)` of a non-negative integer: exact below 2^53,
otherwise rounded to 53 significant bits, a tie going to the even mantissa. -/
def float64OfNat (n : Nat) : Nat :=
  if n < 2 ^ 53 then n
  else
    let e := Nat.log2 n - 52
    roundHalfEven n (2 ^ e) * 2 ^ e

/-- The text `fmt.Sprintf("%.1f", x)` for the non-negative value `x = num / den`:
the value rounded to one decimal, a tie going to the even digit, printed as the
integer part, a point and one digit. -/
def formatF1 (num den : Nat) : String :=
  let tenths := roundHalfEven (10 * num) den
  toString (tenths / 10) ++ "." ++ toString (tenths % 10)

/-- The body of `getMemoryQuantity` (extract.go lines 108-133). `quantity` is
`b` itself. In the last line `float64(b)/float64(div)` is exact once `b` is
converted, `div` being a power of two, so the printed value is the rounded
`float64(b)` over `div`; an index outside "KMGTPE" is a panic. -/
def getMemoryQuantity (b : Int) : Except Fault String :=
  let unit : Int := 1024
  let quantity := b
  if Int.tmod quantity unit = 0 then Except.ok (quantityString b)
  else if b < unit then Except.ok (toString b)
  else
    let r := unitLoop (Int.tdiv b unit) unit 0
    match "KMGTPE".toList[r.2]? with
    | none => Except.error Fault.indexOutOfRange
    | some c =>
      Except.ok (formatF1 (float64OfNat b.toNat) r.1.toNat ++ String.singleton c ++ "i")

/-- The wording of the spec for label condensation: `R` holds every key of `L`
with its value from `L`, every key of `B` that `L` lacks with its value from
`B`, and no other key. -/
def IsCondensed (L B R : GoMap String) : Prop :=
  (∀ k v, mapGet L k = some v → mapGet R k = some v) ∧
  (∀ k v, mapGet L k = none → mapGet B k = some v → mapGet R k = some v) ∧
  (∀ k, mapGet L k = none → mapGet B k = none → mapGet R k = none)

/-! ## Auxiliary facts -/

theorem isZero_iff (chg : change) : chg.isZero = true ↔ chg = change.zero := by
  obtain ⟨ty, v, pa, ta, ix⟩ := chg
  cases v <;> cases ix <;> simp [change.isZero, change.zero, and_assoc]

theorem mapGet_mapDelete {V : Type} (m : GoMap V) (t k : String) :
    mapGet (mapDelete m t) k = if k = t then none else mapGet m k := by
  induction m with
  | nil => simp [mapDelete, mapGet]
  | cons kv rest ih =>
    obtain ⟨k2, v⟩ := kv
    by_cases h2 : k2 = t
    · subst h2
      by_cases hk : k = k2
      · subst hk; simp [mapDelete, ih]
      · have hk2 : ¬ k2 = k := fun e => hk e.symm
        simp [mapDelete, ih, hk, mapGet, hk2]
    · by_cases hk : k2 = k
      · subst hk; simp [mapDelete, h2, mapGet]
      · simp [mapDelete, h2, mapGet, hk, ih]

theorem mapGet_mapSet {V : Type} (m : GoMap V) (t k : String) (v : V) :
    mapGet (mapSet m t v) k = if k = t then some v else mapGet m k := by
  by_cases h : k = t
  · subst h; simp [mapSet, mapGet]
  · have h2 : ¬ t = k := fun e => h e.symm
    simp [mapSet, mapGet, h, h2, mapGet_mapDelete]

theorem mapGet_append {V : Type} (m n : GoMap V) (k : String) :
    mapGet (m ++ n) k = (mapGet m k).orElse (fun _ => mapGet n k) := by
  induction m with
  | nil => simp [mapGet]
  | cons kv rest ih =>
    obtain ⟨k2, v⟩ := kv
    by_cases h : k2 = k
    · simp [mapGet, h]
    · simp [mapGet, h, ih]

theorem mapGet_filter_absent {V : Type} (m : GoMap V) (p : String → Bool) (k : String)
    (hp : p k = true) :
    mapGet (m.filter (fun kv => p kv.1)) k = mapGet m k := by
  induction m with
  | nil => simp [mapGet]
  | cons kv rest ih =>
    obtain ⟨k2, v⟩ := kv
    by_cases h : k2 = k
    · subst h; simp [List.filter_cons, hp, mapGet]
    · cases hq : p k2 <;> simp [List.filter_cons, hq, mapGet, h, ih]

theorem mapGet_condense (current base : GoMap String) (k : String) :
    mapGet (condense current base) k =
      (mapGet current k).orElse (fun _ => mapGet base k) := by
  rw [condense, mapGet_append]
  cases h : mapGet current k with
  | some v => simp
  | none =>
    simp only [Option.orElse]
    exact mapGet_filter_absent base (fun x => (mapGet current x).isNone) k (by simp [h])

theorem sliceAt_ofNat {α : Type} (s : List α) (i : Nat) (hi : i < s.length) :
    sliceAt s (i : Int) = Except.ok (s.get ⟨i, hi⟩) := by
  simp [sliceAt, List.getElem?_eq_getElem hi]

theorem DELETE_ne_CREATE : ¬ DELETE = CREATE := by decide

theorem UPDATE_ne_CREATE : ¬ UPDATE = CREATE := by decide

theorem UPDATE_ne_DELETE : ¬ UPDATE = DELETE := by decide

theorem isCondensed_condense (L B : GoMap String) : IsCondensed L B (condense L B) := by
  refine ⟨?_, ?_, ?_⟩
  · intro k v h; simp [mapGet_condense, h]
  · intro k v h hb; simp [mapGet_condense, h, hb]
  · intro k h hb; simp [mapGet_condense, h, hb]

/-- The labels row of `patchService`, evaluated at a valid position. -/
theorem patchService_labels_eq (cfg : Config) (chg : change) (o : composeOverride)
    (i : Nat) (hi : i < o.Services.length) (w : String)
    (hT : chg.Type_ = UPDATE) (hP : chg.Parent = "labels")
    (hI : chg.Index = Any.int (i : Int)) (hV : chg.Value = Any.str w) :
    chg.patchService cfg o = Except.ok
      { doc := { o with
          Services := o.Services.set i
            { o.Services.get ⟨i, hi⟩ with
              Labels := mapSet (o.Services.get ⟨i, hi⟩).Labels chg.Target w } },
        msg := "",
        logged :=
          match mapGet (o.Services.get ⟨i, hi⟩).Labels chg.Target with
          | some pre =>
            [{ format := "service [%s], label [%s] updated, from:[%s] to:[%s]",
               args := [Any.str (o.Services.get ⟨i, hi⟩).Name, Any.str chg.Target,
                        Any.str pre, Any.str w] }]
          | none => [] } := by
  simp only [change.patchService, hT, hP, hI, hV, asInt, asString, bind, Except.bind,
    UPDATE_ne_CREATE, UPDATE_ne_DELETE, sliceAt_ofNat o.Services i hi, if_true, if_false,
    Int.toNat_ofNat]
  cases mapGet (o.Services.get ⟨i, hi⟩).Labels chg.Target <;> rfl

/-- The extensions row of `patchService` at a valid position when the payload
is not a string-keyed mapping: the change is skipped with a logged notice. -/
theorem patchService_extensions_skip (cfg : Config) (chg : change) (o : composeOverride)
    (i : Nat) (hi : i < o.Services.length)
    (hT : chg.Type_ = UPDATE) (hP : chg.Parent = "extensions")
    (hI : chg.Index = Any.int (i : Int)) (hV : ∀ m, chg.Value ≠ Any.strMap m) :
    chg.patchService cfg o = Except.ok
      { doc := o, msg := "",
        logged := [{ format := "unable to update service [%s], invalid value %+v",
                     args := [Any.str (o.Services.get ⟨i, hi⟩).Name, Any.strMap []] }] } := by
  have hne : ¬ ("extensions" = "labels") := by decide
  simp only [change.patchService, hT, hP, hI, asInt, bind, Except.bind,
    UPDATE_ne_CREATE, UPDATE_ne_DELETE, if_true, if_false, hne]
  -- the payload match falls to its last arm, `hV` excluding the first
  simp only [sliceAt_ofNat o.Services i hi]

/-- The extensions row of `patchService` at a valid position when the payload
is a string-keyed mapping. -/
theorem patchService_extensions_eq (cfg : Config) (chg : change) (o : composeOverride)
    (i : Nat) (hi : i < o.Services.length) (m : GoMap Dyn)
    (hT : chg.Type_ = UPDATE) (hP : chg.Parent = "extensions")
    (hI : chg.Index = Any.int (i : Int)) (hV : chg.Value = Any.strMap m) :
    chg.patchService cfg o = Except.ok
      { doc :=
          match (o.Services.get ⟨i, hi⟩).Extensions with
          | none => o
          | some ext =>
            { o with
              Services := o.Services.set i
                { o.Services.get ⟨i, hi⟩ with
                  Extensions := some (mapSet ext cfg.K8SExtensionKey (Dyn.strMap m)) } },
        msg := "",
        logged := [{ format := "service [%s] extensions updated to %+v",
                     args := [Any.str (o.Services.get ⟨i, hi⟩).Name, Any.strMap m] }] } := by
  have hne : ¬ ("extensions" = "labels") := by decide
  simp only [change.patchService, hT, hP, hI, hV, asInt, bind, Except.bind,
    UPDATE_ne_CREATE, UPDATE_ne_DELETE, sliceAt_ofNat o.Services i hi, if_true, if_false, hne,
    Int.toNat_ofNat]
  cases (o.Services.get ⟨i, hi⟩).Extensions <;> rfl

theorem not_infix_of_empty (v : String) (hv : 0 < v.length) :
    ¬ ∃ a b : String, "" = a ++ v ++ b := by
  rintro ⟨a, b, h⟩
  have hl := congrArg String.length h
  simp only [String.length_append] at hl
  have h0 : "".length = 0 := rfl
  omega

theorem mapDelete_of_absent {V : Type} (m : GoMap V) (k : String) (h : mapGet m k = none) :
    mapDelete m k = m := by
  induction m with
  | nil => rfl
  | cons kv rest ih =>
    obtain ⟨k2, v⟩ := kv
    by_cases hk : k2 = k
    · simp [mapGet, hk] at h
    · simp only [mapGet, hk, if_false] at h
      simp [mapDelete, hk, ih h]

/-! ### The apply loop -/

theorem applyLoop_cons_error (patch : change → composeOverride → Except Fault Patched)
    (chg : change) (rest : List change) (acc : Applied) (e : Fault)
    (h : patch chg acc.doc = Except.error e) :
    applyLoop patch (chg :: rest) acc = Except.error e := by
  simp [applyLoop, h, bind, Except.bind]

theorem applyLoop_cons_ok (patch : change → composeOverride → Except Fault Patched)
    (chg : change) (rest : List change) (acc : Applied) (r : Patched)
    (h : patch chg acc.doc = Except.ok r) :
    applyLoop patch (chg :: rest) acc =
      applyLoop patch rest
        { doc := r.doc, out := acc.out ++ [r.msg], logged := acc.logged ++ r.logged } := by
  simp [applyLoop, h, bind, Except.bind]

theorem applyLoop_append (patch : change → composeOverride → Except Fault Patched)
    (xs ys : List change) (acc : Applied) :
    applyLoop patch (xs ++ ys) acc =
      match applyLoop patch xs acc with
      | Except.ok mid => applyLoop patch ys mid
      | Except.error e => Except.error e := by
  induction xs generalizing acc with
  | nil => simp [applyLoop]
  | cons c cs ih =>
    cases h : patch c acc.doc with
    | error e =>
      simp [applyLoop_cons_error patch c _ acc e h]
    | ok r =>
      simp only [List.cons_append, applyLoop_cons_ok patch c _ acc r h]
      exact ih _

theorem applyLoop_out (patch : change → composeOverride → Except Fault Patched)
    (cs : List change) (acc a : Applied) (h : applyLoop patch cs acc = Except.ok a) :
    ∃ ms : List String, a.out = acc.out ++ ms ∧ ms.length = cs.length := by
  induction cs generalizing acc with
  | nil =>
    simp only [applyLoop, Except.ok.injEq] at h
    exact ⟨[], by simp [h], rfl⟩
  | cons c cs ih =>
    cases hp : patch c acc.doc with
    | error e =>
      rw [applyLoop_cons_error patch c cs acc e hp] at h
      exact Except.noConfusion h
    | ok r =>
      rw [applyLoop_cons_ok patch c cs acc r hp] at h
      obtain ⟨ms, h1, h2⟩ := ih _ h
      exact ⟨r.msg :: ms, by simp [h1], by simp [h2]⟩

/-- Messages of the apply loop: one per change, the message at position `i`
being that of change `i` on the document left by the changes before it. -/
theorem applyLoop_messages (patch : change → composeOverride → Except Fault Patched)
    (cs : List change) (o : composeOverride) (a : Applied)
    (h : applyLoop patch cs { doc := o, out := [], logged := [] } = Except.ok a) :
    a.out.length = cs.length ∧
    ∀ i (hi : i < cs.length), ∃ before r,
      applyLoop patch (cs.take i) { doc := o, out := [], logged := [] } = Except.ok before ∧
      patch (cs.get ⟨i, hi⟩) before.doc = Except.ok r ∧
      a.out[i]? = some r.msg := by
  constructor
  · obtain ⟨ms, h1, h2⟩ := applyLoop_out patch cs _ a h
    simp [h1, h2]
  · intro i hi
    have hsplit : cs = cs.take i ++ cs.get ⟨i, hi⟩ :: cs.drop (i + 1) := by
      have h1 := (List.take_append_drop i cs).symm
      rw [List.drop_eq_getElem_cons hi] at h1
      exact h1
    rw [hsplit, applyLoop_append] at h
    cases hb : applyLoop patch (cs.take i) { doc := o, out := [], logged := [] } with
    | error e => rw [hb] at h; exact Except.noConfusion h
    | ok before =>
      rw [hb] at h
      simp only at h
      cases hp : patch (cs.get ⟨i, hi⟩) before.doc with
      | error e =>
        rw [applyLoop_cons_error patch _ _ before e hp] at h
        exact Except.noConfusion h
      | ok r =>
        rw [applyLoop_cons_ok patch _ _ before r hp] at h
        obtain ⟨ms, h1, _⟩ := applyLoop_out patch _ _ a h
        obtain ⟨ms0, h3, h4⟩ := applyLoop_out patch _ _ before hb
        refine ⟨before, r, rfl, hp, ?_⟩
        have hlen : before.out.length = i := by
          simp [h3, h4, List.length_take, Nat.min_eq_left (Nat.le_of_lt hi)]
        simp only [h1] at *
        rw [List.append_assoc, List.getElem?_append_right (by omega)]
        simp [hlen]

/-! ### Faults of the patch functions -/

theorem sliceAt_out_of_range {α : Type} (s : List α) (n : Int)
    (h : n < 0 ∨ (s.length : Int) ≤ n) :
    sliceAt s n = Except.error Fault.indexOutOfRange := by
  unfold sliceAt
  by_cases hn : n < 0
  · simp [hn]
  · have hlen : s.length ≤ n.toNat := by omega
    simp [hn, List.getElem?_eq_none hlen]

theorem asString_error (v : Any) (h : ∀ w, v ≠ Any.str w) :
    asString v = Except.error Fault.typeAssertion := by
  cases v <;> first | rfl | exact absurd rfl (h _)

theorem asService_error (v : Any) (h : ∀ d, v ≠ Any.service d) :
    asService v = Except.error Fault.typeAssertion := by
  cases v <;> first | rfl | exact absurd rfl (h _)

theorem asVolume_error (v : Any) (h : ∀ d, v ≠ Any.volume d) :
    asVolume v = Except.error Fault.typeAssertion := by
  cases v <;> first | rfl | exact absurd rfl (h _)

theorem asInt_error (v : Any) (h : ∀ n, v ≠ Any.int n) :
    asInt v = Except.error Fault.typeAssertion := by
  cases v <;> first | rfl | exact absurd rfl (h _)

theorem isZero_of_update (chg : change) (hT : chg.Type_ = UPDATE) : chg.isZero = false := by
  have h : ¬ (UPDATE = "") := by decide
  simp [change.isZero, hT, h]

theorem patchVersion_fault (chg : change) (o : composeOverride)
    (hT : chg.Type_ = UPDATE) (hV : ∀ w, chg.Value ≠ Any.str w) :
    chg.patchVersion o = Except.error Fault.typeAssertion := by
  simp [change.patchVersion, hT, asString_error chg.Value hV, bind, Except.bind]

theorem patchService_create_fault (cfg : Config) (chg : change) (o : composeOverride)
    (hT : chg.Type_ = CREATE) (hV : ∀ d, chg.Value ≠ Any.service d) :
    chg.patchService cfg o = Except.error Fault.typeAssertion := by
  simp [change.patchService, hT, asService_error chg.Value hV, bind, Except.bind]

theorem patchService_labels_fault (cfg : Config) (chg : change) (o : composeOverride)
    (i : Nat) (hi : i < o.Services.length)
    (hT : chg.Type_ = UPDATE) (hP : chg.Parent = "labels")
    (hI : chg.Index = Any.int (i : Int)) (hV : ∀ w, chg.Value ≠ Any.str w) :
    chg.patchService cfg o = Except.error Fault.typeAssertion := by
  simp [change.patchService, hT, hP, hI, asInt, asString_error chg.Value hV, bind, Except.bind,
    UPDATE_ne_CREATE, UPDATE_ne_DELETE, sliceAt_ofNat o.Services i hi]

theorem patchService_index_fault (cfg : Config) (chg : change) (o : composeOverride) (n : Int)
    (hI : chg.Index = Any.int n) (hn : n < 0 ∨ (o.Services.length : Int) ≤ n)
    (hrow : chg.Type_ = DELETE ∨
      (chg.Type_ = UPDATE ∧ (chg.Parent = "labels" ∨ chg.Parent = "extensions"))) :
    chg.patchService cfg o = Except.error Fault.indexOutOfRange := by
  have hs := sliceAt_out_of_range o.Services n hn
  have hne : ¬ ("extensions" = "labels") := by decide
  rcases hrow with hT | ⟨hT, hP | hP⟩
  · by_cases hP : chg.Parent = "environment" <;>
      simp [change.patchService, hT, hP, hI, asInt, hs, bind, Except.bind, DELETE_ne_CREATE]
  · simp [change.patchService, hT, hP, hI, asInt, hs, bind, Except.bind,
      UPDATE_ne_CREATE, UPDATE_ne_DELETE]
  · simp [change.patchService, hT, hP, hI, asInt, hs, bind, Except.bind,
      UPDATE_ne_CREATE, UPDATE_ne_DELETE, hne]

/-! ### Frame of the patch functions -/

theorem sliceAt_ok {α : Type} (s : List α) (n : Int) (a : α) (h : sliceAt s n = Except.ok a) :
    0 ≤ n ∧ s[n.toNat]? = some a := by
  unfold sliceAt at h
  by_cases hn : n < 0
  · simp [hn] at h
  · simp only [hn, if_false] at h
    cases hg : s[n.toNat]? with
    | none => simp [hg] at h
    | some b =>
      simp only [hg, Except.ok.injEq] at h
      exact ⟨by omega, by rw [h]⟩

theorem patchVersion_frame (chg : change) (o : composeOverride) (r : Patched)
    (h : chg.patchVersion o = Except.ok r) :
    r.doc.Services = o.Services ∧ r.doc.Volumes = o.Volumes := by
  unfold change.patchVersion at h
  split_ifs at h
  · simp only [Except.ok.injEq] at h
    subst h; exact ⟨rfl, rfl⟩
  · cases hv : asString chg.Value with
    | error e => simp [hv, bind, Except.bind] at h
    | ok w =>
      simp only [hv, bind, Except.bind, Except.ok.injEq] at h
      subst h; exact ⟨rfl, rfl⟩

theorem patchVolume_frame (cfg : Config) (chg : change) (o : composeOverride) (r : Patched)
    (h : chg.patchVolume cfg o = Except.ok r) :
    r.doc.Version = o.Version ∧ r.doc.Services = o.Services := by
  unfold change.patchVolume at h
  split_ifs at h
  · cases hv : asVolume chg.Value with
    | error e => simp [hv, bind, Except.bind] at h
    | ok w =>
      cases hi : asString chg.Index with
      | error e => simp [hv, hi, bind, Except.bind] at h
      | ok k =>
        simp only [hv, hi, bind, Except.bind, Except.ok.injEq] at h
        subst h; exact ⟨rfl, rfl⟩
  · cases hi : asString chg.Index with
    | error e => simp [hi, bind, Except.bind] at h
    | ok k =>
      simp only [hi, bind, Except.bind, Except.ok.injEq] at h
      subst h; exact ⟨rfl, rfl⟩
  · simp only [Except.ok.injEq] at h
    subst h; exact ⟨rfl, rfl⟩

theorem patchService_frame (cfg : Config) (chg : change) (o : composeOverride) (r : Patched)
    (h : chg.patchService cfg o = Except.ok r) :
    r.doc.Version = o.Version ∧ r.doc.Volumes = o.Volumes := by
  unfold change.patchService at h
  split_ifs at h
  all_goals
    first
    | (simp only [Except.ok.injEq] at h; subst h; exact ⟨rfl, rfl⟩)
    | (cases hv : asService chg.Value with
       | error e => simp [hv, bind, Except.bind] at h
       | ok w =>
         simp only [hv, bind, Except.bind, Except.ok.injEq] at h
         subst h; exact ⟨rfl, rfl⟩)
    | (cases hi : asInt chg.Index with
       | error e => simp [hi, bind, Except.bind] at h
       | ok n =>
         cases hs : sliceAt o.Services n with
         | error e => simp [hi, hs, bind, Except.bind] at h
         | ok svc =>
           simp only [hi, hs, bind, Except.bind] at h
           first
           | (simp only [Except.ok.injEq] at h; subst h; exact ⟨rfl, rfl⟩)
           | (cases hw : asString chg.Value with
              | error e => simp [hw] at h
              | ok w =>
                simp only [hw] at h
                split at h <;> (simp only [Except.ok.injEq] at h; subst h; exact ⟨rfl, rfl⟩))
           | (split at h
              · split at h <;> (simp only [Except.ok.injEq] at h; subst h; exact ⟨rfl, rfl⟩)
              · simp only [Except.ok.injEq] at h; subst h; exact ⟨rfl, rfl⟩))

theorem asInt_ok (v : Any) (n : Int) (h : asInt v = Except.ok n) : v = Any.int n := by
  cases v <;> simp [asInt] at h
  rw [h]

theorem set_frame (S : List ServiceConfig) (n : Nat) (svc svc2 : ServiceConfig)
    (hg : S[n]? = some svc) (hname : svc2.Name = svc.Name) :
    (S.set n svc2).length = S.length ∧
    (S.set n svc2).map (fun s => s.Name) = S.map (fun s => s.Name) ∧
    ∀ j, j ≠ n → (S.set n svc2)[j]? = S[j]? := by
  refine ⟨by simp, ?_, ?_⟩
  · apply List.ext_getElem?
    intro j
    by_cases hj : j = n
    · subst hj
      have hlt : j < S.length := by
        rcases Nat.lt_or_ge j S.length with h | h
        · exact h
        · rw [List.getElem?_eq_none h] at hg; exact Option.noConfusion hg
      have hget : S[j] = svc := by
        have h2 := List.getElem?_eq_getElem hlt
        rw [hg] at h2
        exact (Option.some.inj h2).symm
      simp [List.getElem?_map, List.getElem?_set_self, hlt, hname, hget]
    · have hj2 : n ≠ j := fun e => hj e.symm
      simp [List.getElem?_map, List.getElem?_set_ne hj2]
  · intro j hj
    have hj2 : n ≠ j := fun e => hj e.symm
    simp [List.getElem?_set_ne hj2]

/-- Rows of `patchService` with a Parent: the services keep their number, order
and names, and every service other than the one at Index is unchanged. -/
theorem patchService_parent_frame (cfg : Config) (chg : change) (o : composeOverride)
    (r : Patched)
    (hrow : (chg.Type_ = DELETE ∧ chg.Parent = "environment") ∨
      (chg.Type_ = UPDATE ∧ chg.Parent = "labels") ∨
      (chg.Type_ = UPDATE ∧ chg.Parent = "extensions"))
    (h : chg.patchService cfg o = Except.ok r) :
    r.doc.Services.length = o.Services.length ∧
    r.doc.Services.map (fun s => s.Name) = o.Services.map (fun s => s.Name) ∧
    ∀ j : Nat, chg.Index ≠ Any.int (j : Int) → r.doc.Services[j]? = o.Services[j]? := by
  have hne : ¬ ("extensions" = "labels") := by decide
  have key : ∀ (n : Int) (svc svc2 : ServiceConfig), asInt chg.Index = Except.ok n →
      sliceAt o.Services n = Except.ok svc → svc2.Name = svc.Name →
      (o.Services.set n.toNat svc2).length = o.Services.length ∧
      (o.Services.set n.toNat svc2).map (fun s => s.Name) = o.Services.map (fun s => s.Name) ∧
      ∀ j : Nat, chg.Index ≠ Any.int (j : Int) →
        (o.Services.set n.toNat svc2)[j]? = o.Services[j]? := by
    intro n svc svc2 hi hs hname
    obtain ⟨h0, hg⟩ := sliceAt_ok o.Services n svc hs
    obtain ⟨f1, f2, f3⟩ := set_frame o.Services n.toNat svc svc2 hg hname
    refine ⟨f1, f2, ?_⟩
    intro j hj
    apply f3
    intro e
    apply hj
    rw [asInt_ok chg.Index n hi, e, Int.toNat_of_nonneg h0]
  cases hi : asInt chg.Index with
  | error e =>
    rcases hrow with ⟨hT, hP⟩ | ⟨hT, hP⟩ | ⟨hT, hP⟩ <;>
      simp [change.patchService, hT, hP, hi, bind, Except.bind, DELETE_ne_CREATE,
        UPDATE_ne_CREATE, UPDATE_ne_DELETE, hne] at h
  | ok n =>
    cases hs : sliceAt o.Services n with
    | error e =>
      rcases hrow with ⟨hT, hP⟩ | ⟨hT, hP⟩ | ⟨hT, hP⟩ <;>
        simp [change.patchService, hT, hP, hi, hs, bind, Except.bind, DELETE_ne_CREATE,
          UPDATE_ne_CREATE, UPDATE_ne_DELETE, hne] at h
    | ok svc =>
      rcases hrow with ⟨hT, hP⟩ | ⟨hT, hP⟩ | ⟨hT, hP⟩
      · simp only [change.patchService, hT, hP, hi, hs, bind, Except.bind, DELETE_ne_CREATE,
          if_true, if_false, Except.ok.injEq] at h
        subst h
        exact key n svc _ hi hs rfl
      · simp only [change.patchService, hT, hP, hi, hs, bind, Except.bind, UPDATE_ne_CREATE,
          UPDATE_ne_DELETE, if_true, if_false] at h
        cases hw : asString chg.Value with
        | error e => simp [hw] at h
        | ok w =>
          simp only [hw] at h
          split at h <;>
            (simp only [Except.ok.injEq] at h; subst h; exact key n svc _ hi hs rfl)
      · simp only [change.patchService, hT, hP, hi, hs, bind, Except.bind, UPDATE_ne_CREATE,
          UPDATE_ne_DELETE, if_true, if_false, hne] at h
        split at h
        · split at h
          · simp only [Except.ok.injEq] at h; subst h
            exact ⟨rfl, rfl, fun _ _ => rfl⟩
          · simp only [Except.ok.injEq] at h; subst h
            exact key n svc _ hi hs rfl
        · simp only [Except.ok.injEq] at h; subst h
          exact ⟨rfl, rfl, fun _ _ => rfl⟩

/-! ### The unit loop of getMemoryQuantity -/

theorem wrap64_of_range (x : Int) (h0 : -(2 ^ 63) ≤ x) (h1 : x < 2 ^ 63) : wrap64 x = x := by
  unfold wrap64
  rw [Int.emod_eq_of_lt (by omega) (by omega)]
  omega

theorem pow1024_pos (k : Nat) : (0 : Int) < 1024 ^ k := by positivity

theorem pow1024_exp_le (b : Int) (e : Nat) (h1 : (1024 : Int) ^ (e + 1) ≤ b)
    (h2 : b < 2 ^ 63) : e ≤ 5 := by
  by_contra hc
  have h6 : 7 ≤ e + 1 := by omega
  have h7 : (1024 : Int) ^ 7 ≤ 1024 ^ (e + 1) := pow_le_pow_right₀ (by norm_num) h6
  have h8 : (2 : Int) ^ 63 < 1024 ^ 7 := by norm_num
  omega

/-- The loop invariant: `div = 1024^(exp+1)` and `n` is `b / div`, at least 1. -/
theorem unitLoop_spec (b : Int) (hb : b < 2 ^ 63) (n d : Int) (e : Nat)
    (hn : 1 ≤ n) (hd : d = 1024 ^ (e + 1)) (hlo : d * n ≤ b) (hhi : b < d * (n + 1)) :
    ∃ e2, unitLoop n d e = ((1024 : Int) ^ (e2 + 1), e2) ∧
      (1024 : Int) ^ (e2 + 1) ≤ b ∧ b < 1024 * 1024 ^ (e2 + 1) ∧ e2 ≤ 5 := by
  induction n, d, e using unitLoop.induct with
  | case1 n d e h ih =>
    have hdpos : 0 < d := by rw [hd]; exact pow1024_pos _
    have hq : Int.tdiv n 1024 = n / 1024 := Int.tdiv_eq_ediv (by omega) (by omega)
    have hmul : d * 1024 ≤ d * n := Int.mul_le_mul_of_nonneg_left h (le_of_lt hdpos)
    have hw : wrap64 (d * 1024) = d * 1024 :=
      wrap64_of_range _ (by nlinarith) (by omega)
    rw [unitLoop, if_pos h]
    rw [hw, hq] at ih ⊢
    apply ih
    · omega
    · rw [hd]; ring
    · have h1 : 1024 * (n / 1024) ≤ n := by omega
      have h2 := Int.mul_le_mul_of_nonneg_left h1 (le_of_lt hdpos)
      calc d * 1024 * (n / 1024) = d * (1024 * (n / 1024)) := by ring
        _ ≤ d * n := h2
        _ ≤ b := hlo
    · have h1 : n + 1 ≤ 1024 * (n / 1024 + 1) := by omega
      have h2 := Int.mul_le_mul_of_nonneg_left h1 (le_of_lt hdpos)
      calc b < d * (n + 1) := hhi
        _ ≤ d * (1024 * (n / 1024 + 1)) := h2
        _ = d * 1024 * (n / 1024 + 1) := by ring
  | case2 n d e h =>
    have hdpos : 0 < d := by rw [hd]; exact pow1024_pos _
    rw [unitLoop, if_neg h]
    have h1 : d ≤ b := by
      have := Int.mul_le_mul_of_nonneg_left hn (le_of_lt hdpos)
      linarith
    have h2 : b < 1024 * d := by
      have h3 : n + 1 ≤ 1024 := by omega
      have := Int.mul_le_mul_of_nonneg_left h3 (le_of_lt hdpos)
      linarith
    rw [hd] at h1 h2
    exact ⟨e, by rw [hd], h1, h2, pow1024_exp_le b e h1 hb⟩

/-- The loop as getMemoryQuantity starts it, for `1024 ≤ b < 2^63`. -/
theorem unitLoop_start (b : Int) (h0 : 1024 ≤ b) (hb : b < 2 ^ 63) :
    ∃ e2, unitLoop (Int.tdiv b 1024) 1024 0 = ((1024 : Int) ^ (e2 + 1), e2) ∧
      (1024 : Int) ^ (e2 + 1) ≤ b ∧ b < 1024 * 1024 ^ (e2 + 1) ∧ e2 ≤ 5 := by
  have hq : Int.tdiv b 1024 = b / 1024 := Int.tdiv_eq_ediv (by omega) (by omega)
  rw [hq]
  exact unitLoop_spec b hb (b / 1024) 1024 0 (by omega) (by norm_num) (by omega) (by omega)

/-! ### Canonical form of a quantity -/

/-- The factor-stripping loop on a positive number divides out the largest
power of 1024 that divides it. -/
theorem stripLoop_spec (r : Int) (t : Nat) (hr : 0 < r) :
    ∃ j, stripLoop r t = (r / 1024 ^ j, t + j) ∧
      (1024 : Int) ^ j ∣ r ∧ ¬ (1024 : Int) ^ (j + 1) ∣ r := by
  induction r, t using stripLoop.induct with
  | case1 r t h ih =>
    have hq : Int.tdiv r 1024 = r / 1024 := Int.tdiv_eq_ediv (by omega) (by omega)
    have hm : r % 1024 = 0 := by
      rw [← Int.tmod_eq_emod (by omega) (by omega)]; exact h.2
    have hdvd : (1024 : Int) ∣ r := Int.dvd_of_emod_eq_zero hm
    have hr2 : r = 1024 * (r / 1024) := (Int.mul_ediv_cancel' hdvd).symm
    rw [stripLoop, if_pos h, hq]
    rw [hq] at ih
    obtain ⟨j, h1, h2, h3⟩ := ih (by omega)
    refine ⟨j + 1, ?_, ?_, ?_⟩
    · obtain ⟨q, hq2⟩ := h2
      have hp : (1024 : Int) ^ j ≠ 0 := ne_of_gt (pow1024_pos j)
      have hp2 : (1024 : Int) ^ (j + 1) ≠ 0 := ne_of_gt (pow1024_pos (j + 1))
      have e1 : r / 1024 / 1024 ^ j = q := by
        rw [hq2]; exact Int.mul_ediv_cancel_left q hp
      have e2 : r / 1024 ^ (j + 1) = q := by
        have hr3 : r = 1024 ^ (j + 1) * q := by
          rw [hr2, hq2, pow_succ]; ring
        rw [hr3]; exact Int.mul_ediv_cancel_left q hp2
      rw [h1, e1, e2, Nat.add_assoc, Nat.add_comm 1 j]
    · rw [hr2, pow_succ, mul_comm ((1024 : Int) ^ j) 1024]
      exact mul_dvd_mul_left 1024 h2
    · intro hc
      apply h3
      rw [hr2, pow_succ _ (j + 1), mul_comm ((1024 : Int) ^ (j + 1)) 1024] at hc
      exact (mul_dvd_mul_iff_left (by norm_num)).mp hc
  | case2 r t h =>
    rw [stripLoop, if_neg h]
    refine ⟨0, by simp, by simp, ?_⟩
    intro hc
    apply h
    have hc2 : (1024 : Int) ∣ r := by simpa using hc
    have hle : (1024 : Int) ≤ r := Int.le_of_dvd hr hc2
    refine ⟨hle, ?_⟩
    rw [Int.tmod_eq_emod (by omega) (by omega)]
    exact Int.emod_eq_zero_of_dvd hc2

theorem pow1024_multiplicity_unique (r : Int) (j k : Nat)
    (hj : (1024 : Int) ^ j ∣ r) (hj2 : ¬ (1024 : Int) ^ (j + 1) ∣ r)
    (hk : (1024 : Int) ^ k ∣ r) (hk2 : ¬ (1024 : Int) ^ (k + 1) ∣ r) : j = k := by
  rcases Nat.lt_trichotomy j k with h | h | h
  · exact absurd (dvd_trans (pow_dvd_pow (1024 : Int) h) hk) hj2
  · exact h
  · exact absurd (dvd_trans (pow_dvd_pow (1024 : Int) h) hj) hk2

/-- The canonical form of a positive quantity: the number without its factors
of 1024, followed by the suffix for that many factors. -/
theorem quantityString_pos (b : Int) (hb : 0 < b) (j : Nat)
    (hj : (1024 : Int) ^ j ∣ b) (hj2 : ¬ (1024 : Int) ^ (j + 1) ∣ b) :
    quantityString b = toString (b / 1024 ^ j) ++ binarySuffix j := by
  obtain ⟨k, h1, h2, h3⟩ := stripLoop_spec b 0 hb
  have hk : k = j := pow1024_multiplicity_unique b k j h2 h3 hj hj2
  subst hk
  have hneg : ¬ b < 0 := by omega
  simp [quantityString, hneg, h1]

theorem quantityString_zero : quantityString 0 = "0" := by
  have h : stripLoop 0 0 = (0, 0) := by
    rw [stripLoop, if_neg (by decide)]
  have h2 : quantityString 0 = toString (0 : Int) ++ binarySuffix 0 := by
    simp [quantityString, h]
  rw [h2]
  decide

/-! ### The three exits of getMemoryQuantity -/

theorem suffix_char (e : Nat) (he : e ≤ 5) :
    ∃ c, "KMGTPE".toList[e]? = some c ∧ String.singleton c ++ "i" = binarySuffix (e + 1) := by
  interval_cases e
  · exact ⟨'K', rfl, by decide⟩
  · exact ⟨'M', rfl, by decide⟩
  · exact ⟨'G', rfl, by decide⟩
  · exact ⟨'T', rfl, by decide⟩
  · exact ⟨'P', rfl, by decide⟩
  · exact ⟨'E', rfl, by decide⟩

theorem digit_length (d : Nat) (hd : d < 10) : (toString d).length = 1 := by
  interval_cases d <;> decide

theorem getMemoryQuantity_small (b : Int) (h0 : 0 ≤ b) (h1 : b < 1024) :
    getMemoryQuantity b = Except.ok (toString b) := by
  by_cases hz : b = 0
  · subst hz
    have h : Int.tmod 0 1024 = 0 := by decide
    have h2 : toString (0 : Int) = "0" := by decide
    simp only [getMemoryQuantity, h, if_true, quantityString_zero, h2]
  · have hm : ¬ Int.tmod b 1024 = 0 := by
      rw [Int.tmod_eq_emod h0 (by omega)]; omega
    simp only [getMemoryQuantity, hm, if_false, h1, if_true]

theorem getMemoryQuantity_multiple (b : Int) (hb : 0 < b) (hdvd : (1024 : Int) ∣ b) (j : Nat)
    (hj : (1024 : Int) ^ j ∣ b) (hj2 : ¬ (1024 : Int) ^ (j + 1) ∣ b) :
    getMemoryQuantity b = Except.ok (toString (b / 1024 ^ j) ++ binarySuffix j) := by
  have hm : Int.tmod b 1024 = 0 := by
    rw [Int.tmod_eq_emod (by omega) (by omega)]; exact Int.emod_eq_zero_of_dvd hdvd
  simp only [getMemoryQuantity, hm, if_true, quantityString_pos b hb j hj hj2]

theorem getMemoryQuantity_decimal (b : Int) (h0 : 1024 ≤ b) (hnd : ¬ (1024 : Int) ∣ b)
    (e : Nat) (he : e ≤ 5)
    (h1 : unitLoop (Int.tdiv b 1024) 1024 0 = ((1024 : Int) ^ (e + 1), e)) :
    getMemoryQuantity b = Except.ok
      (toString (roundHalfEven (10 * float64OfNat b.toNat) (1024 ^ (e + 1)) / 10) ++ "." ++
        toString (roundHalfEven (10 * float64OfNat b.toNat) (1024 ^ (e + 1)) % 10) ++
        binarySuffix (e + 1)) := by
  obtain ⟨c, hc1, hc2⟩ := suffix_char e he
  have hm : ¬ Int.tmod b 1024 = 0 := by
    rw [Int.tmod_eq_emod (by omega) (by omega)]
    intro hz; exact hnd (Int.dvd_of_emod_eq_zero hz)
  have hlt : ¬ b < 1024 := by omega
  have hnat : ((1024 : Int) ^ (e + 1)).toNat = 1024 ^ (e + 1) := by
    have : ((1024 : Int) ^ (e + 1)) = ((1024 ^ (e + 1) : Nat) : Int) := by push_cast; rfl
    rw [this, Int.toNat_ofNat]
  simp only [getMemoryQuantity, hm, if_false, hlt, h1, hc1, formatF1, hnat]
  rw [← hc2, String.append_assoc _ (String.singleton c) "i"]

/-! ## Emptiness of a changeset -/

/-- C1: the flattened change list has length 0 exactly when `HasNoPatches`
holds, and exactly when the version change is the zero change and both the
service changes and the volume changes are empty. -/
theorem changes_empty_iff (C : changeset) :
    (C.changes.length = 0 ↔ C.HasNoPatches = true) ∧
    (C.HasNoPatches = true ↔
      (C.version = change.zero ∧ C.services = [] ∧ C.volumes = [])) := by
  have hz := isZero_iff C.version
  constructor
  · simp [changeset.HasNoPatches]
  · cases h : C.version.isZero
    · have hne : ¬ C.version = change.zero := fun e => by
        rw [hz.mpr e] at h; exact Bool.noConfusion h
      simp [changeset.HasNoPatches, changeset.changes, h, hne]
    · have he : C.version = change.zero := hz.mp h
      have h0 : change.zero.isZero = true := rfl
      simp [changeset.HasNoPatches, changeset.changes, he, h0]

/-! ## Version patch -/

/-- C2: a version change of Type UPDATE whose Value is the string `w` sets the
version of the document to `w` and returns the one message
"version v updated to w", which contains the old version `v` and `w`. -/
theorem patchVersion_update (chg : change) (o : composeOverride) (w : String)
    (hT : chg.Type_ = UPDATE) (hV : chg.Value = Any.str w) :
    ∃ r, chg.patchVersion o = Except.ok r ∧
      r.doc = { o with Version := w } ∧
      r.msg = "version " ++ o.Version ++ " updated to " ++ w ∧
      (∃ a b, r.msg = a ++ o.Version ++ b) ∧ (∃ a b, r.msg = a ++ w ++ b) := by
  refine ⟨{ doc := { o with Version := w },
             msg := "version " ++ o.Version ++ " updated to " ++ w,
             logged := [{ format := "version " ++ o.Version ++ " updated to " ++ w,
                          args := [] }] },
    ?_, rfl, rfl, ⟨"version ", " updated to " ++ w, ?_⟩,
    ⟨"version " ++ o.Version ++ " updated to ", "", ?_⟩⟩
  · simp [change.patchVersion, hT, hV, asString, bind, Except.bind]
  · simp [String.append_assoc]
  · simp

/-- The version update from "1.0" to "3.8". -/
theorem patchVersion_update_witness :
    ∃ r, change.patchVersion
        { Type_ := "update", Value := Any.str "3.8", Parent := "", Target := "", Index := Any.nil }
        { Version := "1.0", Services := [], Volumes := [] } = Except.ok r ∧
      r.doc = { Version := "3.8", Services := [], Volumes := [] } ∧
      r.msg = "version " ++ "1.0" ++ " updated to " ++ "3.8" ∧
      (∃ a b, r.msg = a ++ "1.0" ++ b) ∧ (∃ a b, r.msg = a ++ "3.8" ++ b) :=
  patchVersion_update _ _ "3.8" rfl rfl

/-! ## Service patches -/

/-- C3: a service change of Type CREATE whose Value is the service descriptor
`d` yields the service list followed by the label-condensed `d` as its new last
element: the length grows by one, every earlier position keeps its service, and
the message is "added service: " followed by the name of `d`. -/
theorem patchService_create (cfg : Config) (chg : change) (o : composeOverride)
    (d : ServiceConfig) (hT : chg.Type_ = CREATE) (hV : chg.Value = Any.service d) :
    ∃ r, chg.patchService cfg o = Except.ok r ∧
      r.doc.Services = o.Services ++ [d.condenseLabels cfg.BaseServiceLabels] ∧
      r.doc.Services.length = o.Services.length + 1 ∧
      (∀ j, j < o.Services.length → r.doc.Services[j]? = o.Services[j]?) ∧
      r.doc.Services.getLast? = some (d.condenseLabels cfg.BaseServiceLabels) ∧
      r.msg = "added service: " ++ d.Name := by
  refine ⟨{ doc := { o with Services := o.Services ++ [d.condenseLabels cfg.BaseServiceLabels] },
             msg := "added service: " ++ d.Name,
             logged := [{ format := "added service: " ++ d.Name, args := [] }] },
    ?_, rfl, ?_, ?_, ?_, rfl⟩
  · simp [change.patchService, hT, hV, asService, bind, Except.bind,
      ServiceConfig.condenseLabels]
  · simp
  · intro j hj
    simp [List.getElem?_append_left hj]
  · simp

/-- Creating the service "db" after the one service "web". -/
theorem patchService_create_witness :
    ∃ r, change.patchService
        { BaseServiceLabels := [("a", "x")], BaseVolumeLabels := [], K8SExtensionKey := "x-k8s" }
        { Type_ := "create", Parent := "", Target := "", Index := Any.nil,
          Value := Any.service { Name := "db", Labels := [], Environment := [],
                                 Extensions := none } }
        { Version := "3.8",
          Services := [{ Name := "web", Labels := [], Environment := [], Extensions := none }],
          Volumes := [] } = Except.ok r ∧
      r.doc.Services =
        [{ Name := "web", Labels := [], Environment := [], Extensions := none }] ++
        [ServiceConfig.condenseLabels
          { Name := "db", Labels := [], Environment := [], Extensions := none } [("a", "x")]] ∧
      r.doc.Services.length = 1 + 1 ∧
      (∀ j, j < 1 → r.doc.Services[j]? =
        [({ Name := "web", Labels := [], Environment := [], Extensions := none } :
            ServiceConfig)][j]?) ∧
      r.doc.Services.getLast? = some (ServiceConfig.condenseLabels
          { Name := "db", Labels := [], Environment := [], Extensions := none } [("a", "x")]) ∧
      r.msg = "added service: " ++ "db" :=
  patchService_create _ _ _ _ rfl rfl

/-- C4: label condensation on CREATE. The labels of the created service (the
new last service) and of the created volume (the one bound to the name in
Index) hold every key of the payload labels with the payload value, every base
key that the payload lacks with the base value, and no other key. -/
theorem create_condenses_labels (cfg : Config) (o : composeOverride)
    (chgS chgV : change) (dS : ServiceConfig) (dV : VolumeConfig) (name : String)
    (hTS : chgS.Type_ = CREATE) (hVS : chgS.Value = Any.service dS)
    (hTV : chgV.Type_ = CREATE) (hVV : chgV.Value = Any.volume dV)
    (hIV : chgV.Index = Any.str name) :
    (∃ r s, chgS.patchService cfg o = Except.ok r ∧ r.doc.Services.getLast? = some s ∧
      IsCondensed dS.Labels cfg.BaseServiceLabels s.Labels) ∧
    (∃ r v, chgV.patchVolume cfg o = Except.ok r ∧ mapGet r.doc.Volumes name = some v ∧
      IsCondensed dV.Labels cfg.BaseVolumeLabels v.Labels) := by
  constructor
  · refine ⟨{ doc := { o with
                Services := o.Services ++ [dS.condenseLabels cfg.BaseServiceLabels] },
               msg := "added service: " ++ dS.Name,
               logged := [{ format := "added service: " ++ dS.Name, args := [] }] },
      dS.condenseLabels cfg.BaseServiceLabels, ?_, ?_, ?_⟩
    · simp [change.patchService, hTS, hVS, asService, bind, Except.bind,
        ServiceConfig.condenseLabels]
    · simp
    · exact isCondensed_condense _ _
  · refine ⟨{ doc := { o with
                Volumes := mapSet o.Volumes name (dV.condenseLabels cfg.BaseVolumeLabels) },
               msg := "added volume: " ++ name,
               logged := [{ format := "added volume: " ++ name, args := [] }] },
      dV.condenseLabels cfg.BaseVolumeLabels, ?_, ?_, ?_⟩
    · simp [change.patchVolume, hTV, hVV, hIV, asVolume, asString, bind, Except.bind]
    · simp [mapGet_mapSet]
    · exact isCondensed_condense _ _

/-- With the base labels "a":"x", a created service (and volume) without labels
gets "a":"x". -/
theorem create_condenses_labels_witness :
    (∃ r s, change.patchService
        { BaseServiceLabels := [("a", "x")], BaseVolumeLabels := [("a", "x")],
          K8SExtensionKey := "x-k8s" }
        { Type_ := "create", Parent := "", Target := "", Index := Any.nil,
          Value := Any.service { Name := "db", Labels := [], Environment := [],
                                 Extensions := none } }
        { Version := "3.8", Services := [], Volumes := [] } = Except.ok r ∧
      r.doc.Services.getLast? = some s ∧ mapGet s.Labels "a" = some "x") ∧
    (∃ r v, change.patchVolume
        { BaseServiceLabels := [("a", "x")], BaseVolumeLabels := [("a", "x")],
          K8SExtensionKey := "x-k8s" }
        { Type_ := "create", Parent := "", Target := "", Index := Any.str "data",
          Value := Any.volume { Labels := [] } }
        { Version := "3.8", Services := [], Volumes := [] } = Except.ok r ∧
      mapGet r.doc.Volumes "data" = some v ∧ mapGet v.Labels "a" = some "x") := by
  obtain ⟨⟨r, s, h1, h2, h3⟩, ⟨r2, v, g1, g2, g3⟩⟩ :=
    create_condenses_labels
      { BaseServiceLabels := [("a", "x")], BaseVolumeLabels := [("a", "x")],
        K8SExtensionKey := "x-k8s" }
      { Version := "3.8", Services := [], Volumes := [] }
      { Type_ := "create", Parent := "", Target := "", Index := Any.nil,
        Value := Any.service { Name := "db", Labels := [], Environment := [],
                               Extensions := none } }
      { Type_ := "create", Parent := "", Target := "", Index := Any.str "data",
        Value := Any.volume { Labels := [] } }
      { Name := "db", Labels := [], Environment := [], Extensions := none }
      { Labels := [] } "data" rfl rfl rfl rfl rfl
  exact ⟨⟨r, s, h1, h2, h3.2.1 "a" "x" rfl rfl⟩, ⟨r2, v, g1, g2, g3.2.1 "a" "x" rfl rfl⟩⟩

/-- With the base labels "a":"x", a created service whose payload sets
"a":"custom" keeps "a":"custom". -/
theorem create_explicit_label_wins :
    ∃ r s, change.patchService
        { BaseServiceLabels := [("a", "x")], BaseVolumeLabels := [], K8SExtensionKey := "x-k8s" }
        { Type_ := "create", Parent := "", Target := "", Index := Any.nil,
          Value := Any.service { Name := "db", Labels := [("a", "custom")], Environment := [],
                                 Extensions := none } }
        { Version := "3.8", Services := [], Volumes := [] } = Except.ok r ∧
      r.doc.Services.getLast? = some s ∧ mapGet s.Labels "a" = some "custom" ∧
      s.Labels = [("a", "custom")] :=
  ⟨_, _, rfl, rfl, rfl, rfl⟩

/-- C5: a service change of Type DELETE with Parent "" and a valid position `i`
yields the service list without the element at `i`, the others in their order,
and returns "removed service: " followed by the name of the removed service. -/
theorem patchService_delete (cfg : Config) (chg : change) (o : composeOverride)
    (i : Nat) (hi : i < o.Services.length)
    (hT : chg.Type_ = DELETE) (hP : chg.Parent = "") (hI : chg.Index = Any.int (i : Int)) :
    ∃ r, chg.patchService cfg o = Except.ok r ∧
      r.doc.Services = o.Services.take i ++ o.Services.drop (i + 1) ∧
      r.doc.Services = o.Services.eraseIdx i ∧
      r.msg = "removed service: " ++ (o.Services.get ⟨i, hi⟩).Name := by
  refine ⟨{ doc := { o with Services := o.Services.take i ++ o.Services.drop (i + 1) },
             msg := "removed service: " ++ (o.Services.get ⟨i, hi⟩).Name,
             logged := [{ format := "removed service: " ++ (o.Services.get ⟨i, hi⟩).Name,
                          args := [] }] },
    ?_, rfl, ?_, rfl⟩
  · simp [change.patchService, hT, hP, hI, asInt, bind, Except.bind, DELETE_ne_CREATE,
      sliceAt_ofNat o.Services i hi]
  · simp [List.eraseIdx_eq_take_drop_succ]

/-- Deleting position 1 of the services A, B, C leaves A, C. -/
theorem patchService_delete_witness :
    ∃ r, change.patchService
        { BaseServiceLabels := [], BaseVolumeLabels := [], K8SExtensionKey := "x-k8s" }
        { Type_ := "delete", Parent := "", Target := "", Index := Any.int 1, Value := Any.nil }
        { Version := "3.8",
          Services := [{ Name := "A", Labels := [], Environment := [], Extensions := none },
                       { Name := "B", Labels := [], Environment := [], Extensions := none },
                       { Name := "C", Labels := [], Environment := [], Extensions := none }],
          Volumes := [] } = Except.ok r ∧
      r.doc.Services =
        [{ Name := "A", Labels := [], Environment := [], Extensions := none },
         { Name := "C", Labels := [], Environment := [], Extensions := none }] ∧
      r.doc.Services =
        [{ Name := "A", Labels := [], Environment := [], Extensions := none },
         { Name := "C", Labels := [], Environment := [], Extensions := none }] ∧
      r.msg = "removed service: " ++ "B" :=
  patchService_delete _ _ _ 1 (by decide) rfl rfl rfl

/-- C6: a service change of Type DELETE with Parent "environment", a valid
position `i` and Target `t` leaves the number of services unchanged, turns the
environment of the service at `i` into its previous environment without the key
`t` (every other entry unchanged), and returns a message that names `t` and the
service. -/
theorem patchService_delete_environment (cfg : Config) (chg : change) (o : composeOverride)
    (i : Nat) (hi : i < o.Services.length)
    (hT : chg.Type_ = DELETE) (hP : chg.Parent = "environment")
    (hI : chg.Index = Any.int (i : Int)) :
    ∃ r s, chg.patchService cfg o = Except.ok r ∧
      r.doc.Services.length = o.Services.length ∧
      r.doc.Services[i]? = some s ∧
      s.Environment = mapDelete (o.Services.get ⟨i, hi⟩).Environment chg.Target ∧
      (∀ k, mapGet s.Environment k =
        if k = chg.Target then none else mapGet (o.Services.get ⟨i, hi⟩).Environment k) ∧
      r.msg = "removed env var: " ++ chg.Target ++ " from service " ++
        (o.Services.get ⟨i, hi⟩).Name ∧
      (∃ a b, r.msg = a ++ chg.Target ++ b) ∧
      (∃ a b, r.msg = a ++ (o.Services.get ⟨i, hi⟩).Name ++ b) := by
  refine ⟨{ doc := { o with
              Services := o.Services.set i
                { o.Services.get ⟨i, hi⟩ with
                  Environment := mapDelete (o.Services.get ⟨i, hi⟩).Environment chg.Target } },
             msg := "removed env var: " ++ chg.Target ++ " from service " ++
               (o.Services.get ⟨i, hi⟩).Name,
             logged := [{ format := "removed env var: " ++ chg.Target ++ " from service " ++
                            (o.Services.get ⟨i, hi⟩).Name, args := [] }] },
    { o.Services.get ⟨i, hi⟩ with
      Environment := mapDelete (o.Services.get ⟨i, hi⟩).Environment chg.Target },
    ?_, ?_, ?_, rfl, ?_, rfl,
    ⟨"removed env var: ", " from service " ++ (o.Services.get ⟨i, hi⟩).Name, ?_⟩,
    ⟨"removed env var: " ++ chg.Target ++ " from service ", "", ?_⟩⟩
  · simp [change.patchService, hT, hP, hI, asInt, bind, Except.bind, DELETE_ne_CREATE,
      sliceAt_ofNat o.Services i hi]
  · simp
  · simp [List.getElem?_set_self, hi]
  · intro k; exact mapGet_mapDelete _ _ _
  · simp [String.append_assoc]
  · simp

/-- Deleting DEBUG from the environment DEBUG=1, PORT=80 of the service "web". -/
theorem patchService_delete_environment_witness :
    ∃ r s, change.patchService
        { BaseServiceLabels := [], BaseVolumeLabels := [], K8SExtensionKey := "x-k8s" }
        { Type_ := "delete", Parent := "environment", Target := "DEBUG", Index := Any.int 0,
          Value := Any.nil }
        { Version := "3.8",
          Services := [{ Name := "web", Labels := [],
                         Environment := [("DEBUG", "1"), ("PORT", "80")], Extensions := none }],
          Volumes := [] } = Except.ok r ∧
      r.doc.Services.length = 1 ∧
      r.doc.Services[0]? = some s ∧
      s.Environment = [("PORT", "80")] ∧
      (∀ k, mapGet s.Environment k =
        if k = "DEBUG" then none else mapGet [("DEBUG", "1"), ("PORT", "80")] k) ∧
      r.msg = "removed env var: " ++ "DEBUG" ++ " from service " ++ "web" ∧
      (∃ a b, r.msg = a ++ "DEBUG" ++ b) ∧ (∃ a b, r.msg = a ++ "web" ++ b) :=
  patchService_delete_environment _ _ _ 0 (by decide) rfl rfl rfl

/-- C7: a service change of Type UPDATE with Parent "labels", a valid position
`i`, Target `t` and string Value `w` yields a document in which the labels of
the service at `i` bind `t` to `w` and every other key as before. -/
theorem patchService_update_label (cfg : Config) (chg : change) (o : composeOverride)
    (i : Nat) (hi : i < o.Services.length) (w : String)
    (hT : chg.Type_ = UPDATE) (hP : chg.Parent = "labels")
    (hI : chg.Index = Any.int (i : Int)) (hV : chg.Value = Any.str w) :
    ∃ r s, chg.patchService cfg o = Except.ok r ∧
      r.doc.Services.length = o.Services.length ∧
      r.doc.Services[i]? = some s ∧
      mapGet s.Labels chg.Target = some w ∧
      (∀ k, k ≠ chg.Target →
        mapGet s.Labels k = mapGet (o.Services.get ⟨i, hi⟩).Labels k) := by
  refine ⟨_, { o.Services.get ⟨i, hi⟩ with
                Labels := mapSet (o.Services.get ⟨i, hi⟩).Labels chg.Target w },
    patchService_labels_eq cfg chg o i hi w hT hP hI hV, ?_, ?_, ?_, ?_⟩
  · simp
  · simp [List.getElem?_set_self, hi]
  · simp [mapGet_mapSet]
  · intro k hk
    simp [mapGet_mapSet, hk]

/-- Setting the label "tier" of the service "web", which has the label "app". -/
theorem patchService_update_label_witness :
    ∃ r s, change.patchService
        { BaseServiceLabels := [], BaseVolumeLabels := [], K8SExtensionKey := "x-k8s" }
        { Type_ := "update", Parent := "labels", Target := "tier", Index := Any.int 0,
          Value := Any.str "front" }
        { Version := "3.8",
          Services := [{ Name := "web", Labels := [("app", "shop")], Environment := [],
                         Extensions := none }],
          Volumes := [] } = Except.ok r ∧
      r.doc.Services.length = 1 ∧
      r.doc.Services[0]? = some s ∧
      mapGet s.Labels "tier" = some "front" ∧
      (∀ k, k ≠ "tier" → mapGet s.Labels k = mapGet [("app", "shop")] k) :=
  patchService_update_label _ _ _ 0 (by decide) "front" rfl rfl rfl rfl

/-- C8, as stated, fails: a labels UPDATE for the key "tier", already bound to
"back", returns the empty message, which holds neither "back" nor "front". -/
theorem label_update_present_returns_empty :
    ∃ r, change.patchService
        { BaseServiceLabels := [], BaseVolumeLabels := [], K8SExtensionKey := "x-k8s" }
        { Type_ := "update", Parent := "labels", Target := "tier", Index := Any.int 0,
          Value := Any.str "front" }
        { Version := "3.8",
          Services := [{ Name := "web", Labels := [("tier", "back")], Environment := [],
                         Extensions := none }],
          Volumes := [] } = Except.ok r ∧
      r.msg = "" ∧
      ¬ (∃ a b, r.msg = a ++ "back" ++ b) ∧ ¬ (∃ a b, r.msg = a ++ "front" ++ b) :=
  ⟨_, rfl, rfl, not_infix_of_empty "back" (by decide), not_infix_of_empty "front" (by decide)⟩

/-- C8, amended: a labels UPDATE at a valid position returns the empty message
whether the key was bound or not; for an unbound key nothing is logged, for a
key bound to `pre` exactly one `log.Debugf` call is made, whose arguments are
the service name, the key, `pre` and the new value. -/
theorem patchService_update_label_audit (cfg : Config) (chg : change) (o : composeOverride)
    (i : Nat) (hi : i < o.Services.length) (w : String)
    (hT : chg.Type_ = UPDATE) (hP : chg.Parent = "labels")
    (hI : chg.Index = Any.int (i : Int)) (hV : chg.Value = Any.str w) :
    ∃ r, chg.patchService cfg o = Except.ok r ∧ r.msg = "" ∧
      (mapGet (o.Services.get ⟨i, hi⟩).Labels chg.Target = none → r.logged = []) ∧
      (∀ pre, mapGet (o.Services.get ⟨i, hi⟩).Labels chg.Target = some pre →
        r.logged = [{ format := "service [%s], label [%s] updated, from:[%s] to:[%s]",
                      args := [Any.str (o.Services.get ⟨i, hi⟩).Name, Any.str chg.Target,
                               Any.str pre, Any.str w] }]) := by
  refine ⟨_, patchService_labels_eq cfg chg o i hi w hT hP hI hV, rfl, ?_, ?_⟩
  · intro h; simp only [h]
  · intro pre h; simp only [h]

/-- Updating the label "tier" of the service "web" from "back" to "front". -/
theorem patchService_update_label_audit_witness :
    ∃ r, change.patchService
        { BaseServiceLabels := [], BaseVolumeLabels := [], K8SExtensionKey := "x-k8s" }
        { Type_ := "update", Parent := "labels", Target := "tier", Index := Any.int 0,
          Value := Any.str "front" }
        { Version := "3.8",
          Services := [{ Name := "web", Labels := [("tier", "back")], Environment := [],
                         Extensions := none }],
          Volumes := [] } = Except.ok r ∧ r.msg = "" ∧
      (mapGet [("tier", "back")] "tier" = none → r.logged = []) ∧
      (∀ pre, mapGet [("tier", "back")] "tier" = some pre →
        r.logged = [{ format := "service [%s], label [%s] updated, from:[%s] to:[%s]",
                      args := [Any.str "web", Any.str "tier", Any.str pre,
                               Any.str "front"] }]) :=
  patchService_update_label_audit _ _ _ 0 (by decide) "front" rfl rfl rfl rfl

/-- C9 at the failing input: an extensions UPDATE with a string-keyed mapping
on the service "web", which has no extension block, returns normally and leaves
the document as it was, the service still without an extension block. -/
theorem extensions_update_lost_without_block :
    ∃ r, change.patchService
        { BaseServiceLabels := [], BaseVolumeLabels := [], K8SExtensionKey := "x-k8s" }
        { Type_ := "update", Parent := "extensions", Target := "", Index := Any.int 0,
          Value := Any.strMap [("replicas", Dyn.num 2)] }
        { Version := "3.8",
          Services := [{ Name := "web", Labels := [], Environment := [], Extensions := none }],
          Volumes := [] } = Except.ok r ∧
      r.doc.Services =
        [{ Name := "web", Labels := [], Environment := [], Extensions := none }] ∧
      r.doc.Services.map (fun s => s.Extensions.isNone) = [true] :=
  ⟨_, rfl, rfl, rfl⟩

/-- The extensions UPDATE on a service that has an extension block: the block
then holds the payload under the extension key, replacing what was there. -/
theorem patchService_update_extensions_present (cfg : Config) (chg : change)
    (o : composeOverride) (i : Nat) (hi : i < o.Services.length) (m ext : GoMap Dyn)
    (hT : chg.Type_ = UPDATE) (hP : chg.Parent = "extensions")
    (hI : chg.Index = Any.int (i : Int)) (hV : chg.Value = Any.strMap m)
    (hE : (o.Services.get ⟨i, hi⟩).Extensions = some ext) :
    ∃ r s ext2, chg.patchService cfg o = Except.ok r ∧ r.msg = "" ∧
      r.doc.Services[i]? = some s ∧ s.Extensions = some ext2 ∧
      mapGet ext2 cfg.K8SExtensionKey = some (Dyn.strMap m) ∧
      (∀ k, k ≠ cfg.K8SExtensionKey → mapGet ext2 k = mapGet ext k) := by
  refine ⟨_, { o.Services.get ⟨i, hi⟩ with
                Extensions := some (mapSet ext cfg.K8SExtensionKey (Dyn.strMap m)) },
    mapSet ext cfg.K8SExtensionKey (Dyn.strMap m),
    patchService_extensions_eq cfg chg o i hi m hT hP hI hV, rfl, ?_, rfl, ?_, ?_⟩
  · simp only [hE]
    simp [List.getElem?_set_self, hi]
  · simp [mapGet_mapSet]
  · intro k hk
    simp [mapGet_mapSet, hk]

/-- The extensions UPDATE on a service without an extension block leaves the
document unchanged. -/
theorem patchService_update_extensions_absent (cfg : Config) (chg : change)
    (o : composeOverride) (i : Nat) (hi : i < o.Services.length) (m : GoMap Dyn)
    (hT : chg.Type_ = UPDATE) (hP : chg.Parent = "extensions")
    (hI : chg.Index = Any.int (i : Int)) (hV : chg.Value = Any.strMap m)
    (hE : (o.Services.get ⟨i, hi⟩).Extensions = none) :
    ∃ r, chg.patchService cfg o = Except.ok r ∧ r.msg = "" ∧ r.doc = o := by
  refine ⟨_, patchService_extensions_eq cfg chg o i hi m hT hP hI hV, rfl, ?_⟩
  simp only [hE]

/-- C10: an extensions UPDATE at a valid position whose payload is not a
string-keyed mapping returns normally with the empty message, a logged skip
notice and the document exactly as it was; in a batch with another service
change `good`, before or after it, the document is the one that `good` alone
produces and the messages are those of `good` and the empty one. -/
theorem patchService_extensions_malformed_skipped (cfg : Config) (chg good : change)
    (o : composeOverride) (ver : change) (vols : List change)
    (i : Nat) (hi : i < o.Services.length)
    (hT : chg.Type_ = UPDATE) (hP : chg.Parent = "extensions")
    (hI : chg.Index = Any.int (i : Int)) (hV : ∀ m, chg.Value ≠ Any.strMap m) :
    (∃ r, chg.patchService cfg o = Except.ok r ∧ r.doc = o ∧ r.msg = "" ∧
      r.logged = [{ format := "unable to update service [%s], invalid value %+v",
                    args := [Any.str (o.Services.get ⟨i, hi⟩).Name, Any.strMap []] }]) ∧
    (∀ g, good.patchService cfg o = Except.ok g →
      ∃ a, changeset.applyServicesPatchesIfAny cfg
          { version := ver, services := [chg, good], volumes := vols } o = Except.ok a ∧
        a.doc = g.doc ∧ a.out = ["", g.msg]) ∧
    (∀ g, good.patchService cfg o = Except.ok g → i < g.doc.Services.length →
      ∃ a, changeset.applyServicesPatchesIfAny cfg
          { version := ver, services := [good, chg], volumes := vols } o = Except.ok a ∧
        a.doc = g.doc ∧ a.out = [g.msg, ""]) := by
  refine ⟨⟨_, patchService_extensions_skip cfg chg o i hi hT hP hI hV, rfl, rfl, rfl⟩, ?_, ?_⟩
  · intro g hg
    simp [changeset.applyServicesPatchesIfAny, applyLoop, bind, Except.bind,
      patchService_extensions_skip cfg chg o i hi hT hP hI hV, hg]
  · intro g hg hlt
    simp [changeset.applyServicesPatchesIfAny, applyLoop, bind, Except.bind,
      patchService_extensions_skip cfg chg g.doc i hlt hT hP hI hV, hg]

/-- A batch of a malformed extensions UPDATE (string payload) and a labels
UPDATE on the service "web": only the label changes. -/
theorem patchService_extensions_malformed_skipped_witness :
    (∃ r, change.patchService
        { BaseServiceLabels := [], BaseVolumeLabels := [], K8SExtensionKey := "x-k8s" }
        { Type_ := "update", Parent := "extensions", Target := "", Index := Any.int 0,
          Value := Any.str "oops" }
        { Version := "3.8",
          Services := [{ Name := "web", Labels := [], Environment := [], Extensions := none }],
          Volumes := [] } = Except.ok r ∧
      r.doc = { Version := "3.8",
                Services := [{ Name := "web", Labels := [], Environment := [],
                               Extensions := none }],
                Volumes := [] } ∧
      r.msg = "" ∧
      r.logged = [{ format := "unable to update service [%s], invalid value %+v",
                    args := [Any.str "web", Any.strMap []] }]) ∧
    (∃ a, changeset.applyServicesPatchesIfAny
        { BaseServiceLabels := [], BaseVolumeLabels := [], K8SExtensionKey := "x-k8s" }
        { version := change.zero,
          services := [{ Type_ := "update", Parent := "extensions", Target := "",
                         Index := Any.int 0, Value := Any.str "oops" },
                       { Type_ := "update", Parent := "labels", Target := "tier",
                         Index := Any.int 0, Value := Any.str "front" }],
          volumes := [] }
        { Version := "3.8",
          Services := [{ Name := "web", Labels := [], Environment := [], Extensions := none }],
          Volumes := [] } = Except.ok a ∧
      a.doc = { Version := "3.8",
                Services := [{ Name := "web", Labels := [("tier", "front")], Environment := [],
                               Extensions := none }],
                Volumes := [] } ∧
      a.out = ["", ""]) := by
  have h := patchService_extensions_malformed_skipped
    { BaseServiceLabels := [], BaseVolumeLabels := [], K8SExtensionKey := "x-k8s" }
    { Type_ := "update", Parent := "extensions", Target := "", Index := Any.int 0,
      Value := Any.str "oops" }
    { Type_ := "update", Parent := "labels", Target := "tier", Index := Any.int 0,
      Value := Any.str "front" }
    { Version := "3.8",
      Services := [{ Name := "web", Labels := [], Environment := [], Extensions := none }],
      Volumes := [] }
    change.zero [] 0 (by decide) rfl rfl rfl (by intro m h; exact Any.noConfusion h)
  exact ⟨h.1, h.2.1 _ rfl⟩

/-! ## Faults and the batch -/

/-- C11, as stated, fails: a labels UPDATE whose Value is an integer, listed
before a well-formed labels UPDATE, makes the whole service pass fault with a
failed type assertion (neither change is applied, no message is returned); so
does a version UPDATE whose Value is an integer, and a service DELETE at
position 5 of a one-service list faults with an index out of range. -/
theorem apply_faults_on_malformed_batch :
    changeset.applyServicesPatchesIfAny
        { BaseServiceLabels := [], BaseVolumeLabels := [], K8SExtensionKey := "x-k8s" }
        { version := change.zero,
          services := [{ Type_ := "update", Parent := "labels", Target := "tier",
                         Index := Any.int 0, Value := Any.int 5 },
                       { Type_ := "update", Parent := "labels", Target := "app",
                         Index := Any.int 0, Value := Any.str "shop" }],
          volumes := [] }
        { Version := "3.8",
          Services := [{ Name := "web", Labels := [], Environment := [], Extensions := none }],
          Volumes := [] } = Except.error Fault.typeAssertion ∧
    changeset.applyVersionPatchesIfAny
        { version := { Type_ := "update", Parent := "", Target := "", Index := Any.nil,
                       Value := Any.int 3 },
          services := [], volumes := [] }
        { Version := "3.8", Services := [], Volumes := [] } = Except.error Fault.typeAssertion ∧
    change.patchService
        { BaseServiceLabels := [], BaseVolumeLabels := [], K8SExtensionKey := "x-k8s" }
        { Type_ := "delete", Parent := "", Target := "", Index := Any.int 5, Value := Any.nil }
        { Version := "3.8",
          Services := [{ Name := "web", Labels := [], Environment := [], Extensions := none }],
          Volumes := [] } = Except.error Fault.indexOutOfRange :=
  ⟨rfl, rfl, rfl⟩

/-- C11, amended: applying a changeset can fault. A version UPDATE or a labels
UPDATE (at a valid position) whose Value is not a string and a service CREATE
whose Value is not a service descriptor fault with a failed type assertion; a
service DELETE, labels UPDATE or extensions UPDATE whose Index is an integer
outside the service list faults with an index out of range; and a fault of one
service change, after any changes that applied, is the result of the whole
service pass: no message is returned and the changes after it are not applied. -/
theorem malformed_change_faults (cfg : Config) (o : composeOverride) (chg : change)
    (rest vols : List change) :
    (chg.Type_ = UPDATE → (∀ w, chg.Value ≠ Any.str w) →
      chg.patchVersion o = Except.error Fault.typeAssertion ∧
      changeset.applyVersionPatchesIfAny { version := chg, services := rest, volumes := vols } o =
        Except.error Fault.typeAssertion) ∧
    (chg.Type_ = CREATE → (∀ d, chg.Value ≠ Any.service d) →
      chg.patchService cfg o = Except.error Fault.typeAssertion) ∧
    (∀ i : Nat, chg.Type_ = UPDATE → chg.Parent = "labels" → chg.Index = Any.int (i : Int) →
      i < o.Services.length → (∀ w, chg.Value ≠ Any.str w) →
      chg.patchService cfg o = Except.error Fault.typeAssertion) ∧
    (∀ n : Int, chg.Index = Any.int n → (n < 0 ∨ (o.Services.length : Int) ≤ n) →
      (chg.Type_ = DELETE ∨
        (chg.Type_ = UPDATE ∧ (chg.Parent = "labels" ∨ chg.Parent = "extensions"))) →
      chg.patchService cfg o = Except.error Fault.indexOutOfRange) ∧
    (∀ (ver : change) (before : List change) (mid : Applied) (e : Fault),
      applyLoop (change.patchService cfg) before { doc := o, out := [], logged := [] } =
        Except.ok mid →
      chg.patchService cfg mid.doc = Except.error e →
      changeset.applyServicesPatchesIfAny cfg
        { version := ver, services := before ++ chg :: rest, volumes := vols } o =
        Except.error e) := by
  refine ⟨?_, ?_, ?_, ?_, ?_⟩
  · intro hT hV
    refine ⟨patchVersion_fault chg o hT hV, ?_⟩
    simp [changeset.applyVersionPatchesIfAny, isZero_of_update chg hT,
      patchVersion_fault chg o hT hV]
  · intro hT hV
    exact patchService_create_fault cfg chg o hT hV
  · intro i hT hP hI hi hV
    exact patchService_labels_fault cfg chg o i hi hT hP hI hV
  · intro n hI hn hrow
    exact patchService_index_fault cfg chg o n hI hn hrow
  · intro ver before mid e hb hc
    simp only [changeset.applyServicesPatchesIfAny, applyLoop_append, hb]
    exact applyLoop_cons_error _ chg rest mid e hc

/-- A service CREATE whose Value is a string, listed after a service DELETE
that applies and before a labels UPDATE: the service pass faults. -/
theorem malformed_change_faults_witness :
    changeset.applyServicesPatchesIfAny
        { BaseServiceLabels := [], BaseVolumeLabels := [], K8SExtensionKey := "x-k8s" }
        { version := change.zero,
          services :=
            [{ Type_ := "delete", Parent := "", Target := "", Index := Any.int 0,
               Value := Any.nil }] ++
            { Type_ := "create", Parent := "", Target := "", Index := Any.nil,
              Value := Any.str "db" } ::
            [{ Type_ := "update", Parent := "labels", Target := "app", Index := Any.int 0,
               Value := Any.str "shop" }],
          volumes := [] }
        { Version := "3.8",
          Services := [{ Name := "web", Labels := [], Environment := [], Extensions := none }],
          Volumes := [] } = Except.error Fault.typeAssertion :=
  (malformed_change_faults
      { BaseServiceLabels := [], BaseVolumeLabels := [], K8SExtensionKey := "x-k8s" }
      { Version := "3.8",
        Services := [{ Name := "web", Labels := [], Environment := [], Extensions := none }],
        Volumes := [] }
      { Type_ := "create", Parent := "", Target := "", Index := Any.nil, Value := Any.str "db" }
      [{ Type_ := "update", Parent := "labels", Target := "app", Index := Any.int 0,
         Value := Any.str "shop" }]
      []).2.2.2.2 change.zero
    [{ Type_ := "delete", Parent := "", Target := "", Index := Any.int 0, Value := Any.nil }]
    { doc := { Version := "3.8", Services := [], Volumes := [] },
      out := ["removed service: web"],
      logged := [{ format := "removed service: web", args := [] }] }
    Fault.typeAssertion rfl rfl

/-! ## Volume patches -/

/-- C12: a volume change of Type CREATE with Index `k` whose Value is the
volume descriptor `d` binds `k` to the label-condensed `d` in the volume map,
leaves the binding of every other name unchanged, and returns "added volume: "
followed by `k`. -/
theorem patchVolume_create (cfg : Config) (chg : change) (o : composeOverride)
    (k : String) (d : VolumeConfig)
    (hT : chg.Type_ = CREATE) (hI : chg.Index = Any.str k) (hV : chg.Value = Any.volume d) :
    ∃ r, chg.patchVolume cfg o = Except.ok r ∧
      mapGet r.doc.Volumes k = some (d.condenseLabels cfg.BaseVolumeLabels) ∧
      (∀ k2, k2 ≠ k → mapGet r.doc.Volumes k2 = mapGet o.Volumes k2) ∧
      r.msg = "added volume: " ++ k := by
  refine ⟨{ doc := { o with
              Volumes := mapSet o.Volumes k (d.condenseLabels cfg.BaseVolumeLabels) },
             msg := "added volume: " ++ k,
             logged := [{ format := "added volume: " ++ k, args := [] }] },
    ?_, ?_, ?_, rfl⟩
  · simp [change.patchVolume, hT, hI, hV, asVolume, asString, bind, Except.bind]
  · simp [mapGet_mapSet]
  · intro k2 hk
    simp [mapGet_mapSet, hk]

/-- Creating the volume "data" next to the volume "logs", overwriting nothing. -/
theorem patchVolume_create_witness :
    ∃ r, change.patchVolume
        { BaseServiceLabels := [], BaseVolumeLabels := [("size", "1Gi")],
          K8SExtensionKey := "x-k8s" }
        { Type_ := "create", Parent := "", Target := "", Index := Any.str "data",
          Value := Any.volume { Labels := [] } }
        { Version := "3.8", Services := [], Volumes := [("logs", { Labels := [] })] } =
          Except.ok r ∧
      mapGet r.doc.Volumes "data" =
        some (VolumeConfig.condenseLabels { Labels := [] } [("size", "1Gi")]) ∧
      (∀ k2, k2 ≠ "data" →
        mapGet r.doc.Volumes k2 = mapGet [("logs", ({ Labels := [] } : VolumeConfig))] k2) ∧
      r.msg = "added volume: " ++ "data" :=
  patchVolume_create _ _ _ "data" { Labels := [] } rfl rfl rfl

/-- C13: a volume change of Type DELETE with Index `k` yields the volume map
without `k`, the binding of every other name unchanged (the whole document
unchanged when `k` was not bound), and returns "removed volume: " followed by
`k`. -/
theorem patchVolume_delete (cfg : Config) (chg : change) (o : composeOverride) (k : String)
    (hT : chg.Type_ = DELETE) (hI : chg.Index = Any.str k) :
    ∃ r, chg.patchVolume cfg o = Except.ok r ∧
      mapGet r.doc.Volumes k = none ∧
      (∀ k2, k2 ≠ k → mapGet r.doc.Volumes k2 = mapGet o.Volumes k2) ∧
      (mapGet o.Volumes k = none → r.doc = o) ∧
      r.msg = "removed volume: " ++ k := by
  refine ⟨{ doc := { o with Volumes := mapDelete o.Volumes k },
             msg := "removed volume: " ++ k,
             logged := [{ format := "removed volume: " ++ k, args := [] }] },
    ?_, ?_, ?_, ?_, rfl⟩
  · simp [change.patchVolume, hT, hI, asString, bind, Except.bind, DELETE_ne_CREATE]
  · simp [mapGet_mapDelete]
  · intro k2 hk
    simp [mapGet_mapDelete, hk]
  · intro h
    simp [mapDelete_of_absent o.Volumes k h]

/-- Deleting the volume "data" from the volumes "logs" and "data". -/
theorem patchVolume_delete_witness :
    ∃ r, change.patchVolume
        { BaseServiceLabels := [], BaseVolumeLabels := [], K8SExtensionKey := "x-k8s" }
        { Type_ := "delete", Parent := "", Target := "", Index := Any.str "data",
          Value := Any.nil }
        { Version := "3.8", Services := [],
          Volumes := [("logs", { Labels := [] }), ("data", { Labels := [] })] } =
          Except.ok r ∧
      mapGet r.doc.Volumes "data" = none ∧
      (∀ k2, k2 ≠ "data" → mapGet r.doc.Volumes k2 =
        mapGet [("logs", ({ Labels := [] } : VolumeConfig)), ("data", { Labels := [] })] k2) ∧
      (mapGet [("logs", ({ Labels := [] } : VolumeConfig)), ("data", { Labels := [] })] "data"
          = none →
        r.doc = { Version := "3.8", Services := [],
                  Volumes := [("logs", { Labels := [] }), ("data", { Labels := [] })] }) ∧
      r.msg = "removed volume: " ++ "data" :=
  patchVolume_delete _ _ _ "data" rfl rfl

/-- C14, as stated, fails: a volume change of Type UPDATE returns the empty
message, and no skip notice is logged either. -/
theorem volume_update_returns_empty :
    ∃ r, change.patchVolume
        { BaseServiceLabels := [], BaseVolumeLabels := [], K8SExtensionKey := "x-k8s" }
        { Type_ := "update", Parent := "labels", Target := "size", Index := Any.str "data",
          Value := Any.str "2Gi" }
        { Version := "3.8", Services := [],
          Volumes := [("data", { Labels := [("size", "1Gi")] })] } = Except.ok r ∧
      r.msg = "" ∧ r.msg.length = 0 ∧ r.logged.length = 0 :=
  ⟨_, rfl, rfl, rfl, rfl⟩

/-- C14, amended: a volume change of Type UPDATE is a silent no-op of
patchVolume: the document is left unchanged, the returned message is empty and
nothing is logged. -/
theorem patchVolume_update_noop (cfg : Config) (chg : change) (o : composeOverride)
    (hT : chg.Type_ = UPDATE) :
    chg.patchVolume cfg o = Except.ok { doc := o, msg := "", logged := [] } := by
  simp [change.patchVolume, hT, UPDATE_ne_CREATE, UPDATE_ne_DELETE]

/-- A volume UPDATE on a document without volumes. -/
theorem patchVolume_update_noop_witness :
    change.patchVolume
        { BaseServiceLabels := [], BaseVolumeLabels := [], K8SExtensionKey := "x-k8s" }
        { Type_ := "update", Parent := "", Target := "", Index := Any.str "logs",
          Value := Any.volume { Labels := [("size", "5Gi")] } }
        { Version := "3.8", Services := [], Volumes := [] } =
      Except.ok { doc := { Version := "3.8", Services := [], Volumes := [] }, msg := "",
                  logged := [] } :=
  patchVolume_update_noop _ _ _ rfl

/-! ## No-op rows and the order of messages -/

/-- C15: the no-op rows. A version change whose Type is not UPDATE (so CREATE
or DELETE), an unset version change, a service UPDATE whose Parent is neither
"labels" nor "extensions", and a service change whose Type is none of create,
update and delete leave the document exactly as it was, return the empty
message and log nothing. -/
theorem noop_rows (cfg : Config) (chg : change) (o : composeOverride)
    (svcs vols : List change) :
    (chg.Type_ ≠ UPDATE →
      chg.patchVersion o = Except.ok { doc := o, msg := "", logged := [] } ∧
      changeset.applyVersionPatchesIfAny { version := chg, services := svcs, volumes := vols } o =
        Except.ok { doc := o, msg := "", logged := [] }) ∧
    changeset.applyVersionPatchesIfAny
        { version := change.zero, services := svcs, volumes := vols } o =
      Except.ok { doc := o, msg := "", logged := [] } ∧
    (chg.Type_ = UPDATE → chg.Parent ≠ "labels" → chg.Parent ≠ "extensions" →
      chg.patchService cfg o = Except.ok { doc := o, msg := "", logged := [] }) ∧
    (chg.Type_ ≠ CREATE → chg.Type_ ≠ UPDATE → chg.Type_ ≠ DELETE →
      chg.patchService cfg o = Except.ok { doc := o, msg := "", logged := [] }) := by
  refine ⟨?_, ?_, ?_, ?_⟩
  · intro hT
    have hp : chg.patchVersion o = Except.ok { doc := o, msg := "", logged := [] } := by
      simp [change.patchVersion, hT]
    refine ⟨hp, ?_⟩
    simp only [changeset.applyVersionPatchesIfAny, hp]
    split <;> rfl
  · rfl
  · intro hT hl he
    simp [change.patchService, hT, hl, he, UPDATE_ne_CREATE, UPDATE_ne_DELETE]
  · intro hc hu hd
    simp [change.patchService, hc, hu, hd]

/-- A version DELETE and a service UPDATE with Parent "ports" change nothing. -/
theorem noop_rows_witness :
    change.patchVersion
        { Type_ := "delete", Parent := "", Target := "", Index := Any.nil, Value := Any.nil }
        { Version := "3.8", Services := [], Volumes := [] } =
      Except.ok { doc := { Version := "3.8", Services := [], Volumes := [] }, msg := "",
                  logged := [] } ∧
    change.patchService
        { BaseServiceLabels := [], BaseVolumeLabels := [], K8SExtensionKey := "x-k8s" }
        { Type_ := "update", Parent := "ports", Target := "", Index := Any.int 0,
          Value := Any.str "80" }
        { Version := "3.8", Services := [], Volumes := [] } =
      Except.ok { doc := { Version := "3.8", Services := [], Volumes := [] }, msg := "",
                  logged := [] } :=
  ⟨((noop_rows
        { BaseServiceLabels := [], BaseVolumeLabels := [], K8SExtensionKey := "x-k8s" }
        { Type_ := "delete", Parent := "", Target := "", Index := Any.nil, Value := Any.nil }
        { Version := "3.8", Services := [], Volumes := [] } [] []).1 (by decide)).1,
   (noop_rows
        { BaseServiceLabels := [], BaseVolumeLabels := [], K8SExtensionKey := "x-k8s" }
        { Type_ := "update", Parent := "ports", Target := "", Index := Any.int 0,
          Value := Any.str "80" }
        { Version := "3.8", Services := [], Volumes := [] } [] []).2.2.1
      rfl (by decide) (by decide)⟩

/-- C16: when the service pass and the volume pass return, each returns
exactly one message per change, in the order of the changes: message `i` is
the one that change `i` returns on the document left by the changes before it. -/
theorem apply_messages_in_order (cfg : Config) (cset : changeset) (o : composeOverride)
    (aS aV : Applied)
    (hS : cset.applyServicesPatchesIfAny cfg o = Except.ok aS)
    (hV : cset.applyVolumesPatchesIfAny cfg o = Except.ok aV) :
    (aS.out.length = cset.services.length ∧
      ∀ i (hi : i < cset.services.length), ∃ before r,
        applyLoop (change.patchService cfg) (cset.services.take i)
          { doc := o, out := [], logged := [] } = Except.ok before ∧
        (cset.services.get ⟨i, hi⟩).patchService cfg before.doc = Except.ok r ∧
        aS.out[i]? = some r.msg) ∧
    (aV.out.length = cset.volumes.length ∧
      ∀ i (hi : i < cset.volumes.length), ∃ before r,
        applyLoop (change.patchVolume cfg) (cset.volumes.take i)
          { doc := o, out := [], logged := [] } = Except.ok before ∧
        (cset.volumes.get ⟨i, hi⟩).patchVolume cfg before.doc = Except.ok r ∧
        aV.out[i]? = some r.msg) :=
  ⟨applyLoop_messages (change.patchService cfg) cset.services o aS hS,
   applyLoop_messages (change.patchVolume cfg) cset.volumes o aV hV⟩

/-- Two service changes (a CREATE, then a no-op) and one volume DELETE: the
messages are "added service: db", "" and "removed volume: data". -/
theorem apply_messages_in_order_witness :
    ((["added service: db", ""] : List String).length = 2 ∧
      ∀ i (hi : i < 2), ∃ before r,
        applyLoop (change.patchService
            { BaseServiceLabels := [], BaseVolumeLabels := [], K8SExtensionKey := "x-k8s" })
          (List.take i
            [{ Type_ := "create", Parent := "", Target := "", Index := Any.nil,
               Value := Any.service { Name := "db", Labels := [], Environment := [],
                                      Extensions := none } },
             { Type_ := "update", Parent := "ports", Target := "", Index := Any.int 0,
               Value := Any.nil }])
          { doc := { Version := "3.8", Services := [],
                     Volumes := [("data", { Labels := [] })] },
            out := [], logged := [] } = Except.ok before ∧
        (List.get
            [({ Type_ := "create", Parent := "", Target := "", Index := Any.nil,
                Value := Any.service { Name := "db", Labels := [], Environment := [],
                                       Extensions := none } } : change),
             { Type_ := "update", Parent := "ports", Target := "", Index := Any.int 0,
               Value := Any.nil }] ⟨i, hi⟩).patchService
            { BaseServiceLabels := [], BaseVolumeLabels := [], K8SExtensionKey := "x-k8s" }
            before.doc = Except.ok r ∧
        (["added service: db", ""] : List String)[i]? = some r.msg) ∧
    ((["removed volume: data"] : List String).length = 1 ∧
      ∀ i (hi : i < 1), ∃ before r,
        applyLoop (change.patchVolume
            { BaseServiceLabels := [], BaseVolumeLabels := [], K8SExtensionKey := "x-k8s" })
          (List.take i
            [{ Type_ := "delete", Parent := "", Target := "", Index := Any.str "data",
               Value := Any.nil }])
          { doc := { Version := "3.8", Services := [],
                     Volumes := [("data", { Labels := [] })] },
            out := [], logged := [] } = Except.ok before ∧
        (List.get
            [({ Type_ := "delete", Parent := "", Target := "", Index := Any.str "data",
                Value := Any.nil } : change)] ⟨i, hi⟩).patchVolume
            { BaseServiceLabels := [], BaseVolumeLabels := [], K8SExtensionKey := "x-k8s" }
            before.doc = Except.ok r ∧
        (["removed volume: data"] : List String)[i]? = some r.msg) :=
  apply_messages_in_order
    { BaseServiceLabels := [], BaseVolumeLabels := [], K8SExtensionKey := "x-k8s" }
    { version := change.zero,
      services :=
        [{ Type_ := "create", Parent := "", Target := "", Index := Any.nil,
           Value := Any.service { Name := "db", Labels := [], Environment := [],
                                  Extensions := none } },
         { Type_ := "update", Parent := "ports", Target := "", Index := Any.int 0,
           Value := Any.nil }],
      volumes :=
        [{ Type_ := "delete", Parent := "", Target := "", Index := Any.str "data",
           Value := Any.nil }] }
    { Version := "3.8", Services := [], Volumes := [("data", { Labels := [] })] }
    { doc := { Version := "3.8",
               Services := [{ Name := "db", Labels := [], Environment := [],
                              Extensions := none }],
               Volumes := [("data", { Labels := [] })] },
      out := ["added service: db", ""],
      logged := [{ format := "added service: db", args := [] }] }
    { doc := { Version := "3.8", Services := [], Volumes := [] },
      out := ["removed volume: data"],
      logged := [{ format := "removed volume: data", args := [] }] }
    rfl rfl

/-- C18: the positional deletion hazard. On the services A, B, C the two
service DELETE changes with Parent "" and Index 0, then Index 1 (the original
positions of A and B), applied in the listed order, leave the list B, not C:
the second deletion removes C. -/
theorem positional_delete_hazard :
    ∃ a, changeset.applyServicesPatchesIfAny
        { BaseServiceLabels := [], BaseVolumeLabels := [], K8SExtensionKey := "x-k8s" }
        { version := change.zero,
          services := [{ Type_ := "delete", Parent := "", Target := "", Index := Any.int 0,
                         Value := Any.nil },
                       { Type_ := "delete", Parent := "", Target := "", Index := Any.int 1,
                         Value := Any.nil }],
          volumes := [] }
        { Version := "3.8",
          Services := [{ Name := "A", Labels := [], Environment := [], Extensions := none },
                       { Name := "B", Labels := [], Environment := [], Extensions := none },
                       { Name := "C", Labels := [], Environment := [], Extensions := none }],
          Volumes := [] } = Except.ok a ∧
      a.doc.Services.map (fun s => s.Name) = ["B"] ∧
      a.doc.Services.map (fun s => s.Name) ≠ ["C"] ∧
      a.out = ["removed service: A", "removed service: C"] :=
  ⟨_, rfl, rfl, by decide, rfl⟩

/-! ## Frame -/

/-- C19: each patch function touches only its own part of the document. When
it returns, patchVersion leaves the services and the volumes unchanged,
patchService the version and the volumes, patchVolume the version and the
services; and a service change with a Parent (environment DELETE, labels
UPDATE, extensions UPDATE) leaves the number, order and names of the services
and every service other than the one at Index unchanged. -/
theorem patch_frames (cfg : Config) (chg : change) (o : composeOverride) :
    (∀ r, chg.patchVersion o = Except.ok r →
      r.doc.Services = o.Services ∧ r.doc.Volumes = o.Volumes) ∧
    (∀ r, chg.patchService cfg o = Except.ok r →
      r.doc.Version = o.Version ∧ r.doc.Volumes = o.Volumes) ∧
    (∀ r, chg.patchVolume cfg o = Except.ok r →
      r.doc.Version = o.Version ∧ r.doc.Services = o.Services) ∧
    (∀ r, chg.patchService cfg o = Except.ok r →
      ((chg.Type_ = DELETE ∧ chg.Parent = "environment") ∨
        (chg.Type_ = UPDATE ∧ chg.Parent = "labels") ∨
        (chg.Type_ = UPDATE ∧ chg.Parent = "extensions")) →
      r.doc.Services.length = o.Services.length ∧
      r.doc.Services.map (fun s => s.Name) = o.Services.map (fun s => s.Name) ∧
      ∀ j : Nat, chg.Index ≠ Any.int (j : Int) → r.doc.Services[j]? = o.Services[j]?) :=
  ⟨fun r h => patchVersion_frame chg o r h,
   fun r h => patchService_frame cfg chg o r h,
   fun r h => patchVolume_frame cfg chg o r h,
   fun r h hrow => patchService_parent_frame cfg chg o r hrow h⟩

/-- A labels UPDATE on the second of two services: the version, the volumes,
the names and the first service stay as they were. -/
theorem patch_frames_witness :
    ∃ r, change.patchService
        { BaseServiceLabels := [], BaseVolumeLabels := [], K8SExtensionKey := "x-k8s" }
        { Type_ := "update", Parent := "labels", Target := "tier", Index := Any.int 1,
          Value := Any.str "back" }
        { Version := "3.8",
          Services := [{ Name := "web", Labels := [], Environment := [], Extensions := none },
                       { Name := "db", Labels := [], Environment := [], Extensions := none }],
          Volumes := [("data", { Labels := [] })] } = Except.ok r ∧
      (r.doc.Version = "3.8" ∧ r.doc.Volumes = [("data", { Labels := [] })]) ∧
      r.doc.Services.length = 2 ∧
      r.doc.Services.map (fun s => s.Name) = ["web", "db"] ∧
      r.doc.Services[0]? =
        some { Name := "web", Labels := [], Environment := [], Extensions := none } := by
  have h := patch_frames
    { BaseServiceLabels := [], BaseVolumeLabels := [], K8SExtensionKey := "x-k8s" }
    { Type_ := "update", Parent := "labels", Target := "tier", Index := Any.int 1,
      Value := Any.str "back" }
    { Version := "3.8",
      Services := [{ Name := "web", Labels := [], Environment := [], Extensions := none },
                   { Name := "db", Labels := [], Environment := [], Extensions := none }],
      Volumes := [("data", { Labels := [] })] }
  have h4 := h.2.2.2 _ rfl (Or.inr (Or.inl ⟨rfl, rfl⟩))
  exact ⟨_, rfl, h.2.1 _ rfl, h4.1, h4.2.1, h4.2.2 0 (by intro e; injection e with e1; exact absurd e1 (by decide))⟩

/-! ## getMemoryQuantity -/

/-- C20: for `1024 ≤ b < 2^63` the unit-selection loop ends with `exp ≤ 5`, so
that "KMGTPE"[exp] is in bounds, with `div = 1024^(exp+1)` as an exact power
below 2^63 (no product wrapped around), and with `div ≤ b < 1024 * div`. -/
theorem unit_loop_safe_exact (b : Int) (h0 : 1024 ≤ b) (hb : b < 2 ^ 63) :
    ∃ exp div, unitLoop (Int.tdiv b 1024) 1024 0 = (div, exp) ∧
      exp ≤ 5 ∧ ("KMGTPE".toList[exp]?).isSome = true ∧
      div = 1024 ^ (exp + 1) ∧ div < 2 ^ 63 ∧ div ≤ b ∧ b < 1024 * div := by
  obtain ⟨e, h1, h2, h3, h4⟩ := unitLoop_start b h0 hb
  obtain ⟨c, hc1, _⟩ := suffix_char e h4
  exact ⟨e, 1024 ^ (e + 1), h1, h4, by rw [hc1]; rfl, rfl, by omega, h2, h3⟩

/-- The loop on 5000000 bytes: `exp = 1` and `div = 1024^2`. -/
theorem unit_loop_safe_exact_witness :
    ∃ exp div, unitLoop (Int.tdiv 5000000 1024) 1024 0 = (div, exp) ∧
      exp ≤ 5 ∧ ("KMGTPE".toList[exp]?).isSome = true ∧
      div = 1024 ^ (exp + 1) ∧ div < 2 ^ 63 ∧ div ≤ 5000000 ∧ 5000000 < 1024 * div :=
  unit_loop_safe_exact 5000000 (by decide) (by decide)

/-- C17, as stated, fails: for b = 1572864 (1.5 Mi) the largest power of 1024
not exceeding b is 1024^2, which does not divide b, yet the result is "1536Ki":
no decimal digit and the suffix Ki, because b is a multiple of 1024 and the
canonical form of the quantity is returned. -/
theorem memory_quantity_multiple_not_decimal :
    getMemoryQuantity 1572864 = Except.ok "1536Ki" ∧
    (1024 : Int) ^ 2 ≤ 1572864 ∧ (1572864 : Int) < 1024 ^ 3 ∧
    ¬ ((1024 : Int) ^ 2 ∣ 1572864) ∧
    ¬ ('.' ∈ "1536Ki".toList) := by
  refine ⟨?_, by norm_num, by norm_num, by norm_num, by decide⟩
  rw [getMemoryQuantity_multiple 1572864 (by norm_num) (by norm_num) 1 (by norm_num)
    (by norm_num)]
  exact congrArg Except.ok (by decide)

/-- C17, amended: for every non-negative int64 `b`, getMemoryQuantity returns
the decimal integer `b` when `b < 1024`; otherwise, with `1024^k` the largest
power of 1024 not exceeding `b` (1 ≤ k ≤ 6): if `1024^k` divides `b`, the
integer `b / 1024^k` followed by the k-th binary suffix; if `b` is not a
multiple of 1024, a number with exactly one decimal digit followed by the k-th
suffix; and if `b` is a multiple of 1024, the integer `b / 1024^j` followed by
the j-th suffix, `1024^j` being the largest power of 1024 that divides `b`. -/
theorem getMemoryQuantity_format (b : Int) (h0 : 0 ≤ b) (hb : b < 2 ^ 63) :
    (b < 1024 → getMemoryQuantity b = Except.ok (toString b)) ∧
    (1024 ≤ b → ∃ k, 1 ≤ k ∧ k ≤ 6 ∧ (1024 : Int) ^ k ≤ b ∧ b < 1024 ^ (k + 1) ∧
      ((1024 : Int) ^ k ∣ b →
        getMemoryQuantity b = Except.ok (toString (b / 1024 ^ k) ++ binarySuffix k)) ∧
      (¬ (1024 : Int) ∣ b → ∃ n d : Nat, d < 10 ∧ (toString d).length = 1 ∧
        getMemoryQuantity b =
          Except.ok (toString n ++ "." ++ toString d ++ binarySuffix k)) ∧
      (∀ j, (1024 : Int) ∣ b → (1024 : Int) ^ j ∣ b → ¬ (1024 : Int) ^ (j + 1) ∣ b →
        getMemoryQuantity b = Except.ok (toString (b / 1024 ^ j) ++ binarySuffix j))) := by
  refine ⟨fun h1 => getMemoryQuantity_small b h0 h1, ?_⟩
  intro h1
  obtain ⟨e, hu, hlo, hhi, he⟩ := unitLoop_start b h1 hb
  have hhi2 : b < (1024 : Int) ^ (e + 1 + 1) := by
    rw [pow_succ _ (e + 1)]; linarith
  refine ⟨e + 1, by omega, by omega, hlo, hhi2, ?_, ?_, ?_⟩
  · intro hdvd
    have h1024 : (1024 : Int) ∣ b :=
      dvd_trans (dvd_pow_self (1024 : Int) (Nat.succ_ne_zero e)) hdvd
    have hnot : ¬ (1024 : Int) ^ (e + 1 + 1) ∣ b := by
      intro hc
      have := Int.le_of_dvd (by omega) hc
      omega
    exact getMemoryQuantity_multiple b (by omega) h1024 (e + 1) hdvd hnot
  · intro hnd
    have hd : roundHalfEven (10 * float64OfNat b.toNat) (1024 ^ (e + 1)) % 10 < 10 :=
      Nat.mod_lt _ (by decide)
    exact ⟨_, _, hd, digit_length _ hd, getMemoryQuantity_decimal b h1 hnd e he hu⟩
  · intro j hdvd hj hj2
    exact getMemoryQuantity_multiple b (by omega) hdvd j hj hj2

/-- The formatter on 100 * 1024 * 1024 bytes gives "100Mi", on 500 bytes "500". -/
theorem getMemoryQuantity_format_witness :
    getMemoryQuantity (100 * 1024 * 1024) = Except.ok "100Mi" ∧
    getMemoryQuantity 500 = Except.ok "500" := by
  constructor
  · have h := (getMemoryQuantity_format (100 * 1024 * 1024) (by norm_num) (by norm_num)).2
      (by norm_num)
    obtain ⟨k, _, _, _, _, _, _, h3⟩ := h
    rw [h3 2 (by norm_num) (by norm_num) (by norm_num)]
    exact congrArg Except.ok (by decide)
  · have h := (getMemoryQuantity_format 500 (by norm_num) (by norm_num)).1 (by norm_num)
    rw [h]
    exact congrArg Except.ok (by decide)

end Kev
